import Mathlib

set_option autoImplicit false

/-!
# A verification model of the movie-context-provider core

Shallow embedding of the backend's watchlist/watched state machine
(`backend/src/tools/watched.ts`, the watchlist tools, `db/utilities.ts`),
the preference merge engine (`tools/preferences.ts`), the Redis-backed
preference cache (`cache/redis.ts`) and the database client transaction
wrapper (`db/client.ts`).  JavaScript/JSONB values are modelled by the
inductive `JValue`; PostgreSQL tables by lists of row structures; the
external TMDB provider by an environment of pure functions; a
`transaction` by running a fallible state transformer and discarding the
tentative state on error.
-/

/-- JSON-ish JavaScript value, as stored in JSONB columns and passed
through the weakly-typed tool boundary. -/
inductive JValue where
  | str (s : String)
  | num (n : Int)
  | boolean (b : Bool)
  | null
  | arr (xs : List JValue)
  | obj (fields : List (String × JValue))
  deriving Repr, Inhabited

namespace JValue

/-- First binding of a field name in a JS object (objects cannot hold
duplicate keys; the model keeps the first binding). -/
def lookupField (fields : List (String × JValue)) (k : String) : Option JValue :=
  match fields.find? (fun p => p.fst == k) with
  | some p => some p.snd
  | none => none

end JValue

mutual

/-- Model of JavaScript `String(x)` on the values representable here.
A top-level `null` renders as "null"; an array joins its elements with
commas per `Array.prototype.join`, where a `null` element renders as
the empty string. -/
def jsToString : JValue → String
  | .str s => s
  | .num n => toString n
  | .boolean b => if b then "true" else "false"
  | .null => "null"
  | .arr xs => String.intercalate "," (jsJoinList xs)
  | .obj _ => "[object Object]"

/-- The element renderings of `Array.prototype.join`: `null` becomes
"", every other element is stringified via `String(...)`. -/
def jsJoinList : List JValue → List String
  | [] => []
  | .null :: vs => "" :: jsJoinList vs
  | v :: vs => jsToString v :: jsJoinList vs

end

/-- Is this value a JS array? (`Array.isArray`). -/
def JValue.isArr : JValue → Bool
  | .arr _ => true
  | _ => false

/-- `normalizePersonName` from `backend/src/utils/tool-helpers.ts`
(person-enrichment utilities): a bare string is returned as is; an
object with a `name` field unwraps one further nested `name` level and
stringifies; anything else is stringified directly. -/
def normalizePersonName (item : JValue) : String :=
  match item with
  | .str s => s
  | .obj fields =>
      match JValue.lookupField fields "name" with
      | some nv =>
          let nameValue :=
            match nv with
            | .obj nfields =>
                match JValue.lookupField nfields "name" with
                | some inner => inner
                | none => nv
            | _ => nv
          jsToString nameValue
      | none => jsToString item
  | _ => jsToString item

/-- `normalizePersonNames` from the same file. -/
def normalizePersonNames (people : List JValue) : List String :=
  people.map normalizePersonName

/-! ## External TMDB metadata provider and clock (collaborator boundary) -/

/-- Movie metadata returned by `getMovieDetails` in `utils/tmdb.ts`.
`release_date` is an abstract comparable date (only compared against
`now`); `none` models a record with no release date. -/
structure MovieDetails where
  tmdb_id : Nat
  title : String
  year : Option Int
  overview : String
  poster_url : Option String
  rating : Option Int
  release_date : Option Int
  deriving Repr, DecidableEq

/-- Environment of the watch-side operations: the external TMDB provider
(`none` models a failed/unresolvable lookup, which throws in the code)
and the current time (`new Date()`). -/
structure Env where
  tmdb : Nat → Option MovieDetails
  now : Int

/-! ## Database state (schema.sql: movies, watchlist, watched) -/

/-- Row of the `movies` table. -/
structure Movie where
  id : Nat
  tmdb_id : Nat
  title : String
  year : Option Int
  overview : String
  poster_url : Option String
  rating : Option Int
  deriving Repr, DecidableEq

/-- Row of the `watchlist` table. -/
structure WatchlistRow where
  user_id : Nat
  movie_id : Nat
  notes : Option String
  deriving Repr, DecidableEq

/-- Row of the `watched` table. -/
structure WatchedRow where
  user_id : Nat
  movie_id : Nat
  rating : Int
  notes : Option String
  deriving Repr, DecidableEq

/-- The three watch-side tables plus the `movies.id` SERIAL counter. -/
structure DB where
  nextMovieId : Nat
  movies : List Movie
  watchlist : List WatchlistRow
  watched : List WatchedRow
  deriving Repr, DecidableEq

namespace DB

/-- The empty database (SERIAL counters start at 1). -/
def empty : DB := ⟨1, [], [], []⟩

/-- `SELECT id FROM movies WHERE tmdb_id = $1` (tmdb_id is UNIQUE). -/
def findMovieByTmdb (db : DB) (t : Nat) : Option Movie :=
  db.movies.find? (fun m => m.tmdb_id == t)

/-- `INSERT INTO movies ... RETURNING id`. -/
def insertMovie (db : DB) (d : MovieDetails) : Nat × DB :=
  (db.nextMovieId,
   { db with
      movies := db.movies ++
        [⟨db.nextMovieId, d.tmdb_id, d.title, d.year, d.overview, d.poster_url, d.rating⟩],
      nextMovieId := db.nextMovieId + 1 })

/-- Does a watchlist row exist for the (user, movie) pair? -/
def watchlistHas (db : DB) (u mid : Nat) : Bool :=
  db.watchlist.any (fun r => r.user_id == u && r.movie_id == mid)

/-- Does a watched row exist for the (user, movie) pair? -/
def watchedHas (db : DB) (u mid : Nat) : Bool :=
  db.watched.any (fun r => r.user_id == u && r.movie_id == mid)

/-- `DELETE FROM watchlist WHERE user_id = $1 AND movie_id = $2`. -/
def deleteWatchlist (db : DB) (u mid : Nat) : DB :=
  { db with watchlist := db.watchlist.filter (fun r => !(r.user_id == u && r.movie_id == mid)) }

/-- `INSERT INTO watchlist (user_id, movie_id, notes)`. -/
def insertWatchlist (db : DB) (u mid : Nat) (notes : Option String) : DB :=
  { db with watchlist := db.watchlist ++ [⟨u, mid, notes⟩] }

/-- `INSERT INTO watched (user_id, movie_id, rating, notes)`. -/
def insertWatched (db : DB) (u mid : Nat) (rating : Int) (notes : Option String) : DB :=
  { db with watched := db.watched ++ [⟨u, mid, rating, notes⟩] }

/-- `UPDATE watched SET rating, notes, watched_at WHERE user_id AND movie_id`. -/
def updateWatched (db : DB) (u mid : Nat) (rating : Int) (notes : Option String) : DB :=
  { db with
      watched := db.watched.map (fun r =>
        if r.user_id == u && r.movie_id == mid then
          { r with rating := rating, notes := notes }
        else r) }

end DB

/-- JavaScript `notes || null`: an absent or empty-string note is stored
as NULL. -/
def jsOrNull (s : Option String) : Option String :=
  match s with
  | some t => if t == "" then none else some t
  | none => none

/-- `transaction` from `db/client.ts`: run the callback against the
state; on a thrown error the transaction is rolled back, so the caller
observes the original state together with the error. -/
def runTransaction {R : Type} (db : DB) (act : DB → Except String (R × DB)) :
    Except String R × DB :=
  match act db with
  | .ok (r, db2) => (.ok r, db2)
  | .error e => (.error e, db)

/-! ## Watch-side handlers (`tools/watched.ts`, watchlist tools, `db/utilities.ts`) -/

/-- Result shape `{ success, message }` returned by the watch-side
handlers. -/
structure HandlerResult where
  success : Bool
  message : String
  deriving Repr, DecidableEq

/-- Input of `mark_as_watched` (`MarkAsWatchedSchema`). -/
structure MarkAsWatchedInput where
  tmdb_id : Nat
  rating : Int
  notes : Option String
  deriving Repr, DecidableEq

/-- `MarkAsWatchedSchema`: `tmdb_id` positive integer, `rating` integer
in `[1, 5]` (this mirrors the `watched.rating` CHECK constraint). -/
def validMarkInput (i : MarkAsWatchedInput) : Bool :=
  decide (0 < i.tmdb_id) && decide ((1 : Int) ≤ i.rating) && decide (i.rating ≤ (5 : Int))

/-- The inline check-then-insert on `movies` inside
`handleMarkAsWatched` (`watched.ts` lines 338-364): reuse the existing
row id, or insert the fetched details under a fresh id. -/
def ensureMovieInline (db : DB) (t : Nat) (d : MovieDetails) : Nat × DB :=
  match db.findMovieByTmdb t with
  | some m => (m.id, db)
  | none => db.insertMovie d

/-- `handleMarkAsWatched` (`watched.ts`): fetch the TMDB details, reject
an unreleased movie, ensure the movie row, then either update the
existing watched row (early return: the watchlist is not touched) or
insert a new watched row and delete any watchlist row for the pair. -/
def handleMarkAsWatched (env : Env) (db : DB) (input : MarkAsWatchedInput) (userId : Nat) :
    Except String (HandlerResult × DB) :=
  match env.tmdb input.tmdb_id with
  | none => .error "Failed to fetch movie details"
  | some movieDetails =>
      if movieDetails.release_date.any (fun d => decide (env.now < d)) then
        .error ("\"" ++ movieDetails.title ++
          "\" hasn't been released yet. You can add it to your watchlist instead.")
      else
        match ensureMovieInline db input.tmdb_id movieDetails with
        | (movieId, db1) =>
        if db1.watchedHas userId movieId then
          let db2 := db1.updateWatched userId movieId input.rating (jsOrNull input.notes)
          .ok ({ success := true, message := "Updated watch record with new rating." }, db2)
        else
          let db2 := db1.insertWatched userId movieId input.rating (jsOrNull input.notes)
          let removedFromWatchlist := db2.watchlistHas userId movieId
          let db3 := db2.deleteWatchlist userId movieId
          .ok ({ success := true,
                 message :=
                   if removedFromWatchlist then
                     "Movie marked as watched and removed from watchlist."
                   else "Movie marked as watched." }, db3)

/-- MCP tool response, as produced by `withSimpleToolHandler`: a thrown
handler error becomes an `isError` response instead of an exception. -/
structure MCPResponse where
  isError : Bool
  success : Bool
  message : String
  deriving Repr, DecidableEq

/-- `markAsWatched`: schema validation, then the handler inside one
transaction, wrapped by `withSimpleToolHandler`. -/
def markAsWatched (env : Env) (db : DB) (input : MarkAsWatchedInput) (userId : Nat) :
    MCPResponse × DB :=
  if !validMarkInput input then
    ({ isError := true, success := false,
       message := "Failed to mark movie as watched: Invalid input" }, db)
  else
    match runTransaction db (fun d => handleMarkAsWatched env d input userId) with
    | (.ok r, db2) => ({ isError := false, success := r.success, message := r.message }, db2)
    | (.error e, db2) =>
        ({ isError := true, success := false,
           message := "Failed to mark movie as watched: " ++ e }, db2)

/-- Input of `add_to_watchlist` (`AddToWatchlistSchema`). -/
structure AddToWatchlistInput where
  tmdb_id : Nat
  notes : Option String
  deriving Repr, DecidableEq

/-- `ensureMovieExists` from `db/utilities.ts`: reuse the existing movie
row, else fetch from TMDB (a failed fetch throws) and insert. -/
def ensureMovieExists (env : Env) (db : DB) (t : Nat) : Except String (Nat × DB) :=
  match db.findMovieByTmdb t with
  | some m => .ok (m.id, db)
  | none =>
      match env.tmdb t with
      | some d => .ok (db.insertMovie d)
      | none => .error "Failed to fetch movie details"

/-- `handleAddToWatchlist` (watchlist tools): ensure the movie row, then
insert a watchlist row unless one already exists.  Note: the `watched`
table is never consulted. -/
def handleAddToWatchlist (env : Env) (db : DB) (input : AddToWatchlistInput) (userId : Nat) :
    Except String (HandlerResult × DB) := do
  let p ← ensureMovieExists env db input.tmdb_id
  let movieId := p.1
  let db1 := p.2
  if db1.watchlistHas userId movieId then
    .ok ({ success := false, message := "Movie is already in your watchlist" }, db1)
  else
    .ok ({ success := true, message := "Movie added to watchlist successfully" },
         db1.insertWatchlist userId movieId (jsOrNull input.notes))

/-- `addToWatchlist`: schema validation, handler in one transaction,
`withSimpleToolHandler` wrapping. -/
def addToWatchlist (env : Env) (db : DB) (input : AddToWatchlistInput) (userId : Nat) :
    MCPResponse × DB :=
  if !decide (0 < input.tmdb_id) then
    ({ isError := true, success := false,
       message := "Failed to add to watchlist: Invalid input" }, db)
  else
    match runTransaction db (fun d => handleAddToWatchlist env d input userId) with
    | (.ok r, db2) => ({ isError := false, success := r.success, message := r.message }, db2)
    | (.error e, db2) =>
        ({ isError := true, success := false,
           message := "Failed to add to watchlist: " ++ e }, db2)

/-- `removeFromWatchlist` (watchlist tools): look the movie up by
tmdb_id — a missing movie row throws "Movie not found in database",
which `withSimpleToolHandler` converts into an error response — then
delete the watchlist row and report whether one was present. -/
def removeFromWatchlist (db : DB) (tmdbId : Nat) (userId : Nat) : MCPResponse × DB :=
  if !decide (0 < tmdbId) then
    ({ isError := true, success := false,
       message := "Failed to remove from watchlist: Invalid input" }, db)
  else
    match db.findMovieByTmdb tmdbId with
    | none =>
        ({ isError := true, success := false,
           message := "Failed to remove from watchlist: Movie not found in database" }, db)
    | some m =>
        let wasPresent := db.watchlistHas userId m.id
        let db2 := db.deleteWatchlist userId m.id
        if wasPresent then
          ({ isError := false, success := true,
             message := "Removed \"" ++ m.title ++ "\" from your watchlist." }, db2)
        else
          ({ isError := false, success := false,
             message := "\"" ++ m.title ++ "\" was not in your watchlist." }, db2)

/-! ## Batch orchestrator (`markAsWatchedBatch`, `watched.ts` lines 60-122) -/

/-- Per-entry record `{ tmdb_id, success, message }` collected by the
batch. -/
structure BatchEntryResult where
  tmdb_id : Nat
  success : Bool
  message : String
  deriving Repr, DecidableEq

/-- The `structuredContent` of a batch response. -/
structure BatchReport where
  success : Bool
  results : List BatchEntryResult
  deriving Repr, DecidableEq

/-- `MarkAsWatchedBatchSchema`: a non-empty list of valid entries.  The
schema is parsed up front for the whole batch; a single invalid entry
(for instance rating 0) makes the entire call throw before any entry is
processed. -/
def validBatchInput (entries : List MarkAsWatchedInput) : Bool :=
  !entries.isEmpty && entries.all validMarkInput

/-- One best-effort step: run the entry in its own transaction and
record the outcome, swallowing a thrown per-entry error. -/
def bestEffortStep (env : Env) (userId : Nat) (acc : List BatchEntryResult × DB)
    (e : MarkAsWatchedInput) : List BatchEntryResult × DB :=
  match runTransaction acc.2 (fun d => handleMarkAsWatched env d e userId) with
  | (.ok r, db2) => (acc.1 ++ [⟨e.tmdb_id, r.success, r.message⟩], db2)
  | (.error msg, db2) => (acc.1 ++ [⟨e.tmdb_id, false, msg⟩], db2)

/-- One transactional step: run the entry on the shared client; a
thrown error aborts the whole fold. -/
def transactionalStep (env : Env) (userId : Nat) (acc : List BatchEntryResult × DB)
    (e : MarkAsWatchedInput) : Except String (List BatchEntryResult × DB) := do
  let p ← handleMarkAsWatched env acc.2 e userId
  .ok (acc.1 ++ [⟨e.tmdb_id, p.1.success, p.1.message⟩], p.2)

/-- `markAsWatchedBatch`: parse the whole batch, then either run every
entry in its own transaction collecting a per-entry report
(best-effort), or run all entries inside one shared transaction that
rolls back entirely on the first thrown error. -/
def markAsWatchedBatch (env : Env) (db : DB) (entries : List MarkAsWatchedInput)
    (transactional : Bool) (userId : Nat) : Except String BatchReport × DB :=
  if !validBatchInput entries then
    (.error "Invalid input", db)
  else if !transactional then
    let p := entries.foldl (bestEffortStep env userId) ([], db)
    (.ok ⟨p.1.all (fun r => r.success), p.1⟩, p.2)
  else
    match runTransaction db (fun d => entries.foldlM (transactionalStep env userId) ([], d)) with
    | (.ok q, db2) => (.ok ⟨true, q⟩, db2)
    | (.error e, db2) => (.error e, db2)

/-! ## Traces of the public watch-side operations -/

/-- A call of one of the three watch-side public operations. -/
inductive Op where
  | add (userId tmdb : Nat) (notes : Option String)
  | remove (userId tmdb : Nat)
  | mark (userId tmdb : Nat) (rating : Int) (notes : Option String)
  deriving Repr, DecidableEq

/-- State reached after one public call (responses discarded). -/
def runOp (env : Env) (db : DB) : Op → DB
  | .add u t n => (addToWatchlist env db ⟨t, n⟩ u).2
  | .remove u t => (removeFromWatchlist db t u).2
  | .mark u t r n => (markAsWatched env db ⟨t, r, n⟩ u).2

/-- State reached after a sequence of public calls. -/
def execOps (env : Env) (db : DB) (ops : List Op) : DB :=
  ops.foldl (runOp env) db

/-- Well-formedness: every stored movie id is below the SERIAL counter,
and so is every movie id referenced from `watchlist` / `watched`
(foreign keys into `movies`). -/
def DB.rowIdsOk (db : DB) : Bool :=
  db.movies.all (fun m => decide (m.id < db.nextMovieId)) &&
  db.watchlist.all (fun r => decide (r.movie_id < db.nextMovieId)) &&
  db.watched.all (fun r => decide (r.movie_id < db.nextMovieId))

/-- The mutual-exclusion invariant: no (user, movie) pair has both a
watchlist row and a watched row. -/
def DB.mutexOk (db : DB) : Bool :=
  db.watched.all (fun w => !(db.watchlistHas w.user_id w.movie_id))

/-- Is the (user, tmdb) pair currently watched? (follows the
`movies.tmdb_id` lookup the handlers use). -/
def DB.watchedPairTmdb (db : DB) (u t : Nat) : Bool :=
  match db.findMovieByTmdb t with
  | some m => db.watchedHas u m.id
  | none => false

/-! ## Demo environment for concrete runs -/

/-- Concrete TMDB record used by the concrete runs. -/
def demoDetails (t : Nat) : MovieDetails :=
  { tmdb_id := t, title := "Movie", year := some 2000, overview := "",
    poster_url := none, rating := some 7, release_date := some 0 }

/-- Concrete environment: tmdb id 2 is unreleased (release date 200,
now = 100), ids up to 10 resolve, larger ids fail to resolve. -/
def demoEnv : Env :=
  { tmdb := fun t =>
      if t == 2 then some { demoDetails 2 with release_date := some 200 }
      else if t ≤ 10 then some (demoDetails t)
      else none,
    now := 100 }


/-! ## Preference engine (`tools/preferences.ts`) and Redis cache (`cache/redis.ts`) -/

/-- First hit of `searchPeople` used by `enrichPersonNames`; `none`
models "no result or lookup failure" (which degrades to the fallback
entry). -/
structure PersonHit where
  profile_url : Option String
  id : Int
  deriving Repr, DecidableEq

/-- Environment of the preference read path: the external person-lookup
service. -/
structure PrefEnv where
  people : String → Option PersonHit

/-- Row of the `preferences` table; `updated_at` is a logical timestamp
(one tick per committed transaction). -/
structure PrefRow where
  user_id : Nat
  key : String
  value : JValue
  updated_at : Nat
  deriving Repr, Inhabited

/-- The response object that `getPreferences` builds, returns, and
caches: the (possibly enriched) preference list. -/
structure PrefResponse where
  preferences : List (String × JValue)
  deriving Repr, Inhabited

/-- Preference-side state: the `preferences` table, the Redis cache
keyed per user (`user:{id}:preferences`), and the logical clock. -/
structure PrefState where
  rows : List PrefRow
  cache : List (Nat × PrefResponse)
  now : Nat

/-- `getCached` on a user's preference key. -/
def cacheGet (c : List (Nat × PrefResponse)) (u : Nat) : Option PrefResponse :=
  match c.find? (fun p => p.1 == u) with
  | some p => some p.2
  | none => none

/-- `setCached` on a user's preference key (overwrites). -/
def cacheSet (c : List (Nat × PrefResponse)) (u : Nat) (r : PrefResponse) :
    List (Nat × PrefResponse) :=
  (u, r) :: c.filter (fun p => !(p.1 == u))

/-- `deleteCached` on a user's preference key. -/
def cacheDel (c : List (Nat × PrefResponse)) (u : Nat) : List (Nat × PrefResponse) :=
  c.filter (fun p => !(p.1 == u))

/-- `SELECT value FROM preferences WHERE user_id = $1 AND key = $2`. -/
def lookupPref (rows : List PrefRow) (u : Nat) (k : String) : Option JValue :=
  match rows.find? (fun r => r.user_id == u && r.key == k) with
  | some r => some r.value
  | none => none

/-- `INSERT ... ON CONFLICT (user_id, key) DO UPDATE SET value,
updated_at = NOW()`. -/
def upsertPref (rows : List PrefRow) (u : Nat) (k : String) (v : JValue) (t : Nat) :
    List PrefRow :=
  if rows.any (fun r => r.user_id == u && r.key == k) then
    rows.map (fun r =>
      if r.user_id == u && r.key == k then { r with value := v, updated_at := t } else r)
  else rows ++ [⟨u, k, v, t⟩]

/-- `DELETE FROM preferences WHERE user_id = $1 AND key = $2`. -/
def deletePref (rows : List PrefRow) (u : Nat) (k : String) : List PrefRow :=
  rows.filter (fun r => !(r.user_id == u && r.key == k))

/-- Insert into a list already sorted by descending `updated_at`. -/
def insertByTimeDesc (r : PrefRow) : List PrefRow → List PrefRow
  | [] => [r]
  | x :: xs =>
      if x.updated_at ≤ r.updated_at then r :: x :: xs else x :: insertByTimeDesc r xs

/-- `ORDER BY updated_at DESC`. -/
def orderByUpdatedDesc (rows : List PrefRow) : List PrefRow :=
  rows.foldr insertByTimeDesc []

/-- JSON rendering of an optional string (NULL when absent). -/
def optStrToJ : Option String → JValue
  | some s => .str s
  | none => .null

/-- The per-row enrichment of `getPreferences`: for `favorite_actors` /
`favorite_directors` array values, each stored representation is
normalized to a name and looked up in the person service, falling back
to a no-image entry; other rows pass through unchanged. -/
def enrichPref (env : PrefEnv) (key : String) (value : JValue) : String × JValue :=
  if (key == "favorite_actors" || key == "favorite_directors") && value.isArr then
    match value with
    | .arr xs =>
        (key, .arr ((normalizePersonNames xs).map (fun n =>
          match env.people n with
          | some p =>
              .obj [("name", .str n), ("profile_url", optStrToJ p.profile_url),
                    ("id", .num p.id)]
          | none => .obj [("name", .str n), ("profile_url", .null), ("id", .num 0)])))
    | _ => (key, value)
  else (key, value)

/-- The response `getPreferences` computes on a cache miss: the user's
rows ordered by most recent update, enriched per row. -/
def freshPrefResponse (env : PrefEnv) (rows : List PrefRow) (u : Nat) : PrefResponse :=
  ⟨(orderByUpdatedDesc (rows.filter (fun r => r.user_id == u))).map
      (fun r => enrichPref env r.key r.value)⟩

/-- `getPreferences`: serve the cached response when present; otherwise
read and enrich the rows, cache the response, and return it. -/
def getPreferences (env : PrefEnv) (s : PrefState) (u : Nat) : PrefResponse × PrefState :=
  match cacheGet s.cache u with
  | some r => (r, s)
  | none =>
      let resp := freshPrefResponse env s.rows u
      (resp, { s with cache := cacheSet s.cache u resp })

/-- The three list-valued preference keys. -/
def listPrefKeys : List String := ["favorite_actors", "favorite_directors", "favorite_genres"]

/-- The per-pair value computation of `handleSetPreferences`: for a
list-valued key receiving an array, merge with the existing stored list
(person keys: normalize both sides to names, append unseen incoming
names; genre keys: append incoming elements whose `String(...)` image is
not already present); any other (key, value) combination is stored
verbatim. -/
def mergedPrefValue (rows : List PrefRow) (u : Nat) (k : String) (v : JValue) : JValue :=
  if listPrefKeys.contains k && v.isArr then
    match v with
    | .arr incoming =>
        let existingValue :=
          match lookupPref rows u k with
          | some ev => ev
          | none => .arr []
        let existingArray :=
          match existingValue with
          | .arr xs => xs
          | _ => []
        if k == "favorite_actors" || k == "favorite_directors" then
          let existingNames := normalizePersonNames existingArray
          let newNames := normalizePersonNames incoming
          .arr ((existingNames ++
            newNames.filter (fun n => !existingNames.contains n)).map (fun n => .str n))
        else
          let existingStrings := existingArray.map jsToString
          .arr (existingArray ++
            incoming.filter (fun item => !existingStrings.contains (jsToString item)))
    | _ => v
  else v

/-- Result of a preference mutation as seen through `withToolHandler`. -/
structure PrefOpResult where
  isError : Bool
  message : String
  deriving Repr, DecidableEq

/-- `setPreferences`: validate, upsert every pair inside one
transaction (each pair sees the upserts of the previous pairs), then
invalidate the user's cache entry and rebuild it via `getPreferences`. -/
def setPreferences (env : PrefEnv) (s : PrefState) (u : Nat)
    (prefs : List (String × JValue)) : PrefOpResult × PrefState :=
  if prefs.isEmpty || prefs.any (fun p => p.1 == "") then
    ({ isError := true, message := "Failed to save preferences: Invalid input" }, s)
  else
    let rows2 := prefs.foldl
      (fun acc p => upsertPref acc u p.1 (mergedPrefValue acc u p.1 p.2) s.now) s.rows
    let s1 : PrefState := { rows := rows2, cache := cacheDel s.cache u, now := s.now + 1 }
    let p := getPreferences env s1 u
    ({ isError := false,
       message := "Successfully set " ++ toString prefs.length ++ " preference(s)" }, p.2)

/-- The `item` argument of `remove_preference_item`
(`z.union([z.string(), z.number()])`). -/
inductive RemoveItem where
  | str (s : String)
  | num (n : Int)
  deriving Repr, DecidableEq

/-- JavaScript strict equality between a stored value and the
string-or-number `item`. -/
def jsStrictEqItem : JValue → RemoveItem → Bool
  | .str s, .str t => s == t
  | .num n, .num m => n == m
  | _, _ => false

/-- Rendering of the item inside the response message (JS template
interpolation). -/
def removeItemText : RemoveItem → String
  | .str s => s
  | .num n => toString n

/-- The element filter of `handleRemovePreferenceItem` when the first
element looks like a named object: keep elements whose `name` field is
not strictly equal to the item (elements without a `name` field, and
non-objects, are kept). -/
def objFilterKeep (item : RemoveItem) (el : JValue) : Bool :=
  match el with
  | .obj fs =>
      match JValue.lookupField fs "name" with
      | some nv => !(jsStrictEqItem nv item)
      | none => true
  | _ => true

/-- The filtered list computed by `handleRemovePreferenceItem`: remove
by `name` when the first element is a named object, by value
otherwise. -/
def removeUpdatedList (xs : List JValue) (item : RemoveItem) : List JValue :=
  let isObjArray :=
    match xs.head? with
    | some (.obj fs) => (JValue.lookupField fs "name").isSome
    | _ => false
  if isObjArray then xs.filter (objFilterKeep item)
  else xs.filter (fun el => !(jsStrictEqItem el item))

/-- `removePreferenceItem`: in one transaction, load the list (missing
key or non-array value throws, rolling back), filter the item out (by
`name` when the first element is a named object, by value otherwise),
then delete the row entirely if the result is empty or store the
filtered list; on success invalidate and rebuild the user's cache
entry. -/
def removePreferenceItem (env : PrefEnv) (s : PrefState) (u : Nat) (key : String)
    (item : RemoveItem) : PrefOpResult × PrefState :=
  if key == "" then
    ({ isError := true, message := "Failed to remove item: Invalid input" }, s)
  else
    match lookupPref s.rows u key with
    | none =>
        ({ isError := true,
           message := "Failed to remove item: Preference \"" ++ key ++ "\" not found" }, s)
    | some currentValue =>
        match currentValue with
        | .arr xs =>
            let updatedValue := removeUpdatedList xs item
            let rows2 :=
              if updatedValue.isEmpty then deletePref s.rows u key
              else upsertPref s.rows u key (.arr updatedValue) s.now
            let s1 : PrefState := { rows := rows2, cache := cacheDel s.cache u, now := s.now + 1 }
            let p := getPreferences env s1 u
            ({ isError := false,
               message :=
                 if updatedValue.isEmpty then
                   "Removed \"" ++ removeItemText item ++ "\" from " ++ key ++
                     ". Preference deleted because it's now empty."
                 else "Removed \"" ++ removeItemText item ++ "\" from " ++ key }, p.2)
        | _ =>
            ({ isError := true,
               message := "Failed to remove item: Preference \"" ++ key ++
                 "\" is not an array" }, s)

/-- Empty preference-side state. -/
def PrefState.empty : PrefState := ⟨[], [], 0⟩

/-- Demo person-lookup environment. -/
def demoPrefEnv : PrefEnv :=
  ⟨fun n => if n == "Tom Hanks" then some ⟨some "http://img/hanks", 31⟩ else none⟩

/-! ## Trace safety and invariants -/

/-- Does this sequence of public calls avoid `addToWatchlist` on a pair
that is currently watched?  (`addToWatchlist` does not consult the
`watched` table, so such a call can re-create a watchlist row next to a
watched row.) -/
def safeOps (env : Env) (db : DB) : List Op → Bool
  | [] => true
  | op :: ops =>
      (match op with
       | .add u t _ => !(db.watchedPairTmdb u t)
       | _ => true) && safeOps env (runOp env db op) ops

/-- Is this value the empty JSON array? -/
def JValue.isEmptyArr : JValue → Bool
  | .arr [] => true
  | _ => false

/-- The `existingArray` computed by `handleSetPreferences` for a
list-valued key: the stored value when it is an array, else `[]`. -/
def existingArrayOf (rows : List PrefRow) (u : Nat) (k : String) : List JValue :=
  match lookupPref rows u k with
  | some (.arr xs) => xs
  | some _ => []
  | none => []

/-- A call of one of the public preference operations. -/
inductive PrefOp where
  | set (u : Nat) (prefs : List (String × JValue))
  | removeItem (u : Nat) (key : String) (item : RemoveItem)

/-- State reached after one public preference call. -/
def runPrefOp (env : PrefEnv) (s : PrefState) : PrefOp → PrefState
  | .set u prefs => (setPreferences env s u prefs).2
  | .removeItem u key item => (removePreferenceItem env s u key item).2

/-- State reached after a sequence of public preference calls. -/
def execPrefOps (env : PrefEnv) (s : PrefState) (ops : List PrefOp) : PrefState :=
  ops.foldl (runPrefOp env) s

/-- No row of the `preferences` table stores an empty list under a
list-valued key. -/
def rowsNoEmptyList (rows : List PrefRow) : Bool :=
  rows.all (fun r => !(listPrefKeys.contains r.key && r.value.isEmptyArr))

/-- State-level form of `rowsNoEmptyList`. -/
def PrefState.noEmptyListRow (s : PrefState) : Bool :=
  rowsNoEmptyList s.rows

/-- Does a `setPreferences` payload avoid supplying an empty array for a
list-valued key? -/
def goodSetPairs (prefs : List (String × JValue)) : Bool :=
  prefs.all (fun p => !(listPrefKeys.contains p.1 && p.2.isEmptyArr))

/-- Is this preference call outside the empty-array corner? -/
def goodPrefOp : PrefOp → Bool
  | .set _ prefs => goodSetPairs prefs
  | .removeItem _ _ _ => true

/-! ## Concrete scenario states used in closed runs -/

/-- favorite_genres = ["Action"] stored for user 1. -/
def sGenresAction : PrefState :=
  (setPreferences demoPrefEnv PrefState.empty 1
    [("favorite_genres", .arr [.str "Action"])]).2

/-- favorite_genres = ["Action","Comedy"] stored for user 1. -/
def sGenresAB : PrefState :=
  (setPreferences demoPrefEnv PrefState.empty 1
    [("favorite_genres", .arr [.str "Action", .str "Comedy"])]).2

/-- `sGenresAB` after a second `setPreferences` with ["Comedy","Drama"]. -/
def sGenresABD : PrefState :=
  (setPreferences demoPrefEnv sGenresAB 1
    [("favorite_genres", .arr [.str "Comedy", .str "Drama"])]).2

/-- `sGenresAction` read back once, so the user's preference cache
holds a copy of the old preferences. -/
def sCached : PrefState :=
  (getPreferences demoPrefEnv sGenresAction 1).2

/-- Database reached by marking tmdb 5 watched and then re-adding it to
the watchlist (user 1). -/
def cexWatchDB : DB :=
  execOps demoEnv DB.empty [.mark 1 5 4 none, .add 1 5 none]

/-! # Theorems -/

/-! ### Association-list lemmas for the preferences table and cache -/

theorem upsertPref_find_self (u : Nat) (k : String) (v : JValue) (t : Nat) :
    ∀ rows, ∃ r0, (upsertPref rows u k v t).find? (fun r => r.user_id == u && r.key == k)
      = some r0 ∧ r0.value = v := by
  intro rows
  induction rows with
  | nil =>
      refine ⟨⟨u, k, v, t⟩, ?_, rfl⟩
      simp [upsertPref, List.find?]
  | cons r rs ih =>
      by_cases hr : (r.user_id == u && r.key == k) = true
      · refine ⟨{ r with value := v, updated_at := t }, ?_, rfl⟩
        have hany : ((r :: rs).any (fun r => r.user_id == u && r.key == k)) = true := by
          simp [List.any_cons, hr]
        simp only [upsertPref, hany, if_true, List.map_cons, hr]
        exact List.find?_cons_of_pos _ hr
      · have hrf : (r.user_id == u && r.key == k) = false := by
          simpa using hr
        by_cases hany : (rs.any (fun r => r.user_id == u && r.key == k)) = true
        · have hany2 : ((r :: rs).any (fun r => r.user_id == u && r.key == k)) = true := by
            simp [List.any_cons, hany]
          obtain ⟨r0, hfind, hval⟩ := ih
          refine ⟨r0, ?_, hval⟩
          simp only [upsertPref, hany2, if_true, List.map_cons, hrf, if_false]
          rw [List.find?_cons_of_neg]
          · simpa only [upsertPref, hany, if_true] using hfind
          · simp [hrf]
        · have hany2 : ((r :: rs).any (fun r => r.user_id == u && r.key == k)) = false := by
            simp only [List.any_cons, hrf, Bool.false_or]
            simpa using hany
          obtain ⟨r0, hfind, hval⟩ := ih
          refine ⟨r0, ?_, hval⟩
          simp only [upsertPref, hany2, Bool.false_eq_true, if_false, List.cons_append]
          rw [List.find?_cons_of_neg]
          · have : (upsertPref rs u k v t) = rs ++ [⟨u, k, v, t⟩] := by
              simp only [upsertPref, hany, Bool.false_eq_true, if_false]
            rw [← this]
            exact hfind
          · simp [hrf]

theorem lookupPref_upsertPref_self (rows : List PrefRow) (u : Nat) (k : String) (v : JValue)
    (t : Nat) : lookupPref (upsertPref rows u k v t) u k = some v := by
  obtain ⟨r0, hfind, hval⟩ := upsertPref_find_self u k v t rows
  simp [lookupPref, hfind, hval]

theorem getPreferences_rows (env : PrefEnv) (s : PrefState) (u : Nat) :
    ((getPreferences env s u).2).rows = s.rows := by
  unfold getPreferences
  cases h : cacheGet s.cache u <;> simp [h]

theorem mergedPrefValue_nonarray (rows : List PrefRow) (u : Nat) (k : String) (v : JValue)
    (hv : v.isArr = false) : mergedPrefValue rows u k v = v := by
  unfold mergedPrefValue
  rw [hv]
  simp only [Bool.and_false, Bool.false_eq_true, if_false]

theorem mergedPrefValue_genres (rows : List PrefRow) (u : Nat) (incoming : List JValue) :
    mergedPrefValue rows u "favorite_genres" (.arr incoming)
      = .arr (existingArrayOf rows u "favorite_genres" ++
          incoming.filter (fun item =>
            !((existingArrayOf rows u "favorite_genres").map jsToString).contains
              (jsToString item))) := by
  unfold mergedPrefValue existingArrayOf
  cases h : lookupPref rows u "favorite_genres" with
  | none => simp [h, listPrefKeys, JValue.isArr]
  | some ev => cases ev <;> simp [h, listPrefKeys, JValue.isArr]

theorem setPreferences_single_rows (env : PrefEnv) (s : PrefState) (u : Nat) (k : String)
    (v : JValue) (hne : (k == "") = false) :
    ((setPreferences env s u [(k, v)]).2).rows
      = upsertPref s.rows u k (mergedPrefValue s.rows u k v) s.now := by
  unfold setPreferences
  rw [if_neg]
  · exact getPreferences_rows env _ u
  · simp [hne]

/-- C10: for a list-valued preference key, a non-array incoming value in
`setPreferences` skips the merge/dedup path entirely and is stored
verbatim, replacing whatever was stored before (last-write-wins). -/
theorem setPreferences_nonArray_listKey_lastWriteWins
    (env : PrefEnv) (s : PrefState) (u : Nat) (k : String) (v : JValue)
    (_hk : listPrefKeys.contains k = true) (hv : v.isArr = false) (hne : (k == "") = false) :
    lookupPref ((setPreferences env s u [(k, v)]).2).rows u k = some v := by
  rw [setPreferences_single_rows env s u k v hne, mergedPrefValue_nonarray s.rows u k v hv]
  exact lookupPref_upsertPref_self s.rows u k v s.now

/-- Witness for C10: writing the bare string "Drama" to favorite_genres
over the stored list ["Action"] leaves the string stored verbatim. -/
theorem setPreferences_nonArray_listKey_lastWriteWins_witness :
    lookupPref ((setPreferences demoPrefEnv sGenresAction 1
      [("favorite_genres", .str "Drama")]).2).rows 1 "favorite_genres"
      = some (.str "Drama") :=
  setPreferences_nonArray_listKey_lastWriteWins demoPrefEnv sGenresAction 1
    "favorite_genres" (.str "Drama") rfl rfl rfl

/-- The merge computed by `handleSetPreferences` for the two
person-shaped keys: normalize the existing stored list and the incoming
list to canonical name strings, keep the existing names in order, then
append the incoming names not already among the existing names; stored
as a list of strings. -/
theorem mergedPrefValue_persons (rows : List PrefRow) (u : Nat) (k : String)
    (incoming : List JValue)
    (hk : k = "favorite_actors" ∨ k = "favorite_directors") :
    mergedPrefValue rows u k (.arr incoming)
      = .arr ((normalizePersonNames (existingArrayOf rows u k) ++
          (normalizePersonNames incoming).filter
            (fun n => !(normalizePersonNames (existingArrayOf rows u k)).contains n)).map
          (fun n => .str n)) := by
  rcases hk with hk | hk <;> subst hk <;>
    (unfold mergedPrefValue existingArrayOf
     cases h : lookupPref rows u _ with
     | none => simp [h, listPrefKeys, JValue.isArr]
     | some ev => cases ev <;> simp [h, listPrefKeys, JValue.isArr])

/-- C5 counterexample: for the person-shaped key favorite_actors, the
stored result of a merge is not "the incoming elements" verbatim — an
incoming `{name: "Tom Hanks"}` is stored as the canonical name string
"Tom Hanks", not as the object. -/
theorem prefs_person_merge_not_verbatim_cex :
    lookupPref ((setPreferences demoPrefEnv PrefState.empty 1
      [("favorite_actors", .arr [.obj [("name", .str "Tom Hanks")]])]).2).rows 1
      "favorite_actors" = some (.arr [.str "Tom Hanks"]) ∧
    lookupPref ((setPreferences demoPrefEnv PrefState.empty 1
      [("favorite_actors", .arr [.obj [("name", .str "Tom Hanks")]])]).2).rows 1
      "favorite_actors" ≠ some (.arr [.obj [("name", .str "Tom Hanks")]]) := by
  refine ⟨rfl, ?_⟩
  intro h
  rw [show lookupPref ((setPreferences demoPrefEnv PrefState.empty 1
      [("favorite_actors", .arr [.obj [("name", .str "Tom Hanks")]])]).2).rows 1
      "favorite_actors" = some (.arr [.str "Tom Hanks"]) from rfl] at h
  simp at h

/-- C5 (amended): for every `setPreferences` call on a list-valued key
with an array value, the merge is order-preserving and deduplicated by
canonical string, but what is stored differs by key: for
favorite_genres the stored result is the existing list's elements
verbatim in their original order followed by those incoming elements
(in their given order) whose canonical string (`String(...)`) is not
among the existing elements' canonical strings; for favorite_actors
and favorite_directors the stored result is the canonical name strings
of the existing elements in order followed by the canonical names of
those incoming elements whose canonical name is not already among the
existing canonical names — not the elements verbatim.  The concrete
genres run [] then ["Action","Comedy"] then ["Comedy","Drama"] yields
["Action","Comedy","Drama"]. -/
theorem setPreferences_list_merge_order_dedup :
    (∀ (env : PrefEnv) (s : PrefState) (u : Nat) (incoming : List JValue),
      lookupPref ((setPreferences env s u
          [("favorite_genres", .arr incoming)]).2).rows u "favorite_genres"
        = some (.arr (existingArrayOf s.rows u "favorite_genres" ++
            incoming.filter (fun item =>
              !((existingArrayOf s.rows u "favorite_genres").map jsToString).contains
                (jsToString item))))) ∧
    (∀ (env : PrefEnv) (s : PrefState) (u : Nat) (incoming : List JValue),
      lookupPref ((setPreferences env s u
          [("favorite_actors", .arr incoming)]).2).rows u "favorite_actors"
        = some (.arr ((normalizePersonNames (existingArrayOf s.rows u "favorite_actors") ++
            (normalizePersonNames incoming).filter
              (fun n => !(normalizePersonNames
                (existingArrayOf s.rows u "favorite_actors")).contains n)).map
            (fun n => .str n)))) ∧
    (∀ (env : PrefEnv) (s : PrefState) (u : Nat) (incoming : List JValue),
      lookupPref ((setPreferences env s u
          [("favorite_directors", .arr incoming)]).2).rows u "favorite_directors"
        = some (.arr ((normalizePersonNames (existingArrayOf s.rows u "favorite_directors") ++
            (normalizePersonNames incoming).filter
              (fun n => !(normalizePersonNames
                (existingArrayOf s.rows u "favorite_directors")).contains n)).map
            (fun n => .str n)))) ∧
    lookupPref sGenresABD.rows 1 "favorite_genres"
      = some (.arr [.str "Action", .str "Comedy", .str "Drama"]) := by
  refine ⟨?_, ?_, ?_, rfl⟩
  · intro env s u incoming
    rw [setPreferences_single_rows env s u "favorite_genres" _ (by rfl),
      mergedPrefValue_genres]
    exact lookupPref_upsertPref_self _ _ _ _ _
  · intro env s u incoming
    rw [setPreferences_single_rows env s u "favorite_actors" _ (by rfl),
      mergedPrefValue_persons s.rows u "favorite_actors" incoming (Or.inl rfl)]
    exact lookupPref_upsertPref_self _ _ _ _ _
  · intro env s u incoming
    rw [setPreferences_single_rows env s u "favorite_directors" _ (by rfl),
      mergedPrefValue_persons s.rows u "favorite_directors" incoming (Or.inr rfl)]
    exact lookupPref_upsertPref_self _ _ _ _ _

/-! ### Batch orchestrator lemmas (C2, C4) -/

theorem runTransaction_error {R : Type} (db : DB) (act : DB → Except String (R × DB))
    (e : String) (db2 : DB) (h : runTransaction db act = (.error e, db2)) : db2 = db := by
  unfold runTransaction at h
  cases hact : act db with
  | ok p => rw [hact] at h; simp at h
  | error e2 => rw [hact] at h; simp at h; exact h.2.symm

theorem validMarkInput_rating0 (e : MarkAsWatchedInput) (h : e.rating = 0) :
    validMarkInput e = false := by
  simp [validMarkInput, h]

theorem validBatchInput_rating0 (entries : List MarkAsWatchedInput)
    (h : ∃ e ∈ entries, e.rating = 0) : validBatchInput entries = false := by
  obtain ⟨e, he, hr⟩ := h
  have hv : validMarkInput e = false := validMarkInput_rating0 e hr
  have hall : entries.all validMarkInput = false := by
    cases hcase : entries.all validMarkInput
    · rfl
    · exact absurd (List.all_eq_true.mp hcase e he) (by simp [hv])
  simp [validBatchInput, hall]

theorem bestEffort_fold_tmdbs (env : Env) (u : Nat) :
    ∀ (entries : List MarkAsWatchedInput) (acc : List BatchEntryResult) (db : DB),
      ((entries.foldl (bestEffortStep env u) (acc, db)).1).map (fun r => r.tmdb_id)
        = acc.map (fun r => r.tmdb_id) ++ entries.map (fun e => e.tmdb_id) := by
  intro entries
  induction entries with
  | nil => intro acc db; simp
  | cons e es ih =>
      intro acc db
      rw [List.foldl_cons]
      cases hrt : runTransaction db (fun d => handleMarkAsWatched env d e u) with
      | mk r dbx =>
          cases r with
          | ok hr =>
              rw [show bestEffortStep env u (acc, db) e
                  = (acc ++ [⟨e.tmdb_id, hr.success, hr.message⟩], dbx) from by
                simp [bestEffortStep, hrt]]
              rw [ih]
              simp
          | error msg =>
              rw [show bestEffortStep env u (acc, db) e
                  = (acc ++ [⟨e.tmdb_id, false, msg⟩], dbx) from by
                simp [bestEffortStep, hrt]]
              rw [ih]
              simp

/-- C4: a `transactional = true` batch is all-or-nothing: whenever the
call reports a failure the database is unchanged and the caller gets a
single error, not a partial report; an entry with rating 0 in
particular produces such a failure (rejected by the up-front schema
parse); and concretely, a batch whose second entry is unreleased aborts
with the database unchanged even though the first entry had already
been processed inside the transaction. -/
theorem markAsWatchedBatch_transactional_atomic (env : Env) (db : DB)
    (entries : List MarkAsWatchedInput) (u : Nat) :
    (∀ (m : String) (db2 : DB),
        markAsWatchedBatch env db entries true u = (.error m, db2) → db2 = db) ∧
    ((∃ e ∈ entries, e.rating = 0) →
        markAsWatchedBatch env db entries true u = (.error "Invalid input", db)) ∧
    markAsWatchedBatch demoEnv DB.empty [⟨1, 4, none⟩, ⟨2, 4, none⟩, ⟨3, 5, none⟩] true 1
      = (.error "\"Movie\" hasn't been released yet. You can add it to your watchlist instead.",
         DB.empty) := by
  refine ⟨?_, ?_, rfl⟩
  · intro m db2 h
    by_cases hval : validBatchInput entries = true
    · have hval2 : (!validBatchInput entries) = false := by simp [hval]
      simp only [markAsWatchedBatch, hval2, Bool.false_eq_true, if_false, Bool.not_true] at h
      cases hrt : runTransaction db
          (fun d => entries.foldlM (transactionalStep env u) ([], d)) with
      | mk r dbx =>
          rw [hrt] at h
          cases r with
          | ok q => simp at h
          | error e =>
              simp only [Prod.mk.injEq] at h
              rw [← h.2]
              exact runTransaction_error db _ e dbx hrt
    · have hval2 : (!validBatchInput entries) = true := by
        cases hv : validBatchInput entries
        · rfl
        · exact absurd hv hval
      simp only [markAsWatchedBatch, hval2, if_true, Prod.mk.injEq] at h
      exact h.2.symm
  · intro hex
    have hval : validBatchInput entries = false := validBatchInput_rating0 entries hex
    simp [markAsWatchedBatch, hval]

/-- Witness for C4: the concrete three-entry batch whose second entry
has rating 0 fails as one unit, leaving the empty database unchanged. -/
theorem markAsWatchedBatch_transactional_atomic_witness :
    markAsWatchedBatch demoEnv DB.empty [⟨1, 4, none⟩, ⟨3, 0, none⟩, ⟨4, 5, none⟩] true 1
      = (.error "Invalid input", DB.empty) :=
  (markAsWatchedBatch_transactional_atomic demoEnv DB.empty
    [⟨1, 4, none⟩, ⟨3, 0, none⟩, ⟨4, 5, none⟩] 1).2.1 ⟨⟨3, 0, none⟩, by simp, rfl⟩

/-- C2 counterexample: for the claimed three-entry best-effort batch
whose second entry has rating 0, the call does not produce a per-entry
report with entries 1 and 3 succeeding — the up-front schema parse of
the whole batch throws, no entry is processed, and no WatchedEntry row
exists afterwards. -/
theorem markAsWatchedBatch_bestEffort_rating0_cex :
    markAsWatchedBatch demoEnv DB.empty [⟨1, 4, none⟩, ⟨3, 0, none⟩, ⟨4, 5, none⟩] false 1
      = (.error "Invalid input", DB.empty) ∧
    (markAsWatchedBatch demoEnv DB.empty
        [⟨1, 4, none⟩, ⟨3, 0, none⟩, ⟨4, 5, none⟩] false 1).2.watched = [] :=
  ⟨rfl, rfl⟩

/-- C2 amended: for a best-effort batch whose entries all pass the
up-front schema validation, each entry runs in its own transaction, the
call never throws, and one `{tmdb_id, success, message}` record is
collected per entry in order; a per-entry processing failure (for
instance an unreleased movie as second entry) leaves the other entries
committed and is merely reported.  An entry with rating 0, by contrast,
fails the up-front validation of the whole batch, which then throws
without processing any entry. -/
theorem markAsWatchedBatch_bestEffort_amended :
    (∀ (env : Env) (db : DB) (entries : List MarkAsWatchedInput) (u : Nat),
      validBatchInput entries = true →
      ∃ rep, (markAsWatchedBatch env db entries false u).1 = .ok rep ∧
        rep.results.map (fun r => r.tmdb_id) = entries.map (fun e => e.tmdb_id)) ∧
    ((markAsWatchedBatch demoEnv DB.empty
        [⟨1, 4, none⟩, ⟨2, 4, none⟩, ⟨3, 5, none⟩] false 1).1
      = .ok ⟨false,
          [⟨1, true, "Movie marked as watched."⟩,
           ⟨2, false,
            "\"Movie\" hasn't been released yet. You can add it to your watchlist instead."⟩,
           ⟨3, true, "Movie marked as watched."⟩]⟩ ∧
      (markAsWatchedBatch demoEnv DB.empty
          [⟨1, 4, none⟩, ⟨2, 4, none⟩, ⟨3, 5, none⟩] false 1).2.watched
        = [⟨1, 1, 4, none⟩, ⟨1, 2, 5, none⟩]) ∧
    (∀ (env : Env) (db : DB) (entries : List MarkAsWatchedInput) (u : Nat),
      (∃ e ∈ entries, e.rating = 0) →
      markAsWatchedBatch env db entries false u = (.error "Invalid input", db)) := by
  refine ⟨?_, ⟨rfl, rfl⟩, ?_⟩
  · intro env db entries u hval
    have hval2 : (!validBatchInput entries) = false := by simp [hval]
    refine ⟨⟨((entries.foldl (bestEffortStep env u) ([], db)).1).all (fun r => r.success),
             (entries.foldl (bestEffortStep env u) ([], db)).1⟩, ?_, ?_⟩
    · simp [markAsWatchedBatch, hval2]
    · have := bestEffort_fold_tmdbs env u entries [] db
      simpa using this
  · intro env db entries u hex
    have hval : validBatchInput entries = false := validBatchInput_rating0 entries hex
    simp [markAsWatchedBatch, hval]

/-- Witness for C2 (amended): a single-entry valid best-effort batch
yields an ok report with that entry's tmdb id. -/
theorem markAsWatchedBatch_bestEffort_amended_witness :
    ∃ rep, (markAsWatchedBatch demoEnv DB.empty [⟨1, 4, none⟩] false 1).1 = .ok rep ∧
      rep.results.map (fun r => r.tmdb_id) = [1] :=
  markAsWatchedBatch_bestEffort_amended.1 demoEnv DB.empty [⟨1, 4, none⟩] 1 rfl

/-! ### removeFromWatchlist (C8) -/

theorem watchlistHas_deleteWatchlist_self (db : DB) (u mid : Nat) :
    (db.deleteWatchlist u mid).watchlistHas u mid = false := by
  by_contra h
  rw [Bool.not_eq_false] at h
  simp only [DB.watchlistHas, DB.deleteWatchlist, List.any_eq_true, List.mem_filter] at h
  obtain ⟨r, ⟨_hmem, hkeep⟩, hp⟩ := h
  simp [hp] at hkeep

theorem deleteWatchlist_of_absent (db : DB) (u mid : Nat)
    (h : db.watchlistHas u mid = false) : db.deleteWatchlist u mid = db := by
  unfold DB.deleteWatchlist
  have hall : ∀ r ∈ db.watchlist, (!(r.user_id == u && r.movie_id == mid)) = true := by
    intro r hr
    simp only [DB.watchlistHas] at h
    have h2 := List.any_eq_false.mp h r hr
    simp at h2
    simp
    tauto
  rw [List.filter_eq_self.mpr hall]

/-- C8 counterexample: when no MediaRecord exists for the external id,
`removeFromWatchlist` returns an error response ("Movie not found in
database") rather than a non-error "nothing was removed" result. -/
theorem removeFromWatchlist_missing_movie_cex :
    removeFromWatchlist DB.empty 42 1
      = ({ isError := true, success := false,
           message := "Failed to remove from watchlist: Movie not found in database" },
         DB.empty) := rfl

/-- C8 amended: when the movie row exists, `removeFromWatchlist`
deletes the watchlist entry if present, reports via `success` whether
anything was removed, and never errors; when no movie row exists for
the external id, it returns an error response and leaves the state
unchanged. -/
theorem removeFromWatchlist_amended (db : DB) (t u : Nat) :
    (∀ m : Movie, 0 < t → db.findMovieByTmdb t = some m →
      (removeFromWatchlist db t u).1.isError = false ∧
      (removeFromWatchlist db t u).1.success = db.watchlistHas u m.id ∧
      ((removeFromWatchlist db t u).2).watchlistHas u m.id = false ∧
      (db.watchlistHas u m.id = false → (removeFromWatchlist db t u).2 = db)) ∧
    (0 < t → db.findMovieByTmdb t = none →
      removeFromWatchlist db t u
        = ({ isError := true, success := false,
             message := "Failed to remove from watchlist: Movie not found in database" },
           db)) := by
  constructor
  · intro m hpos hfind
    have hdec : (!decide (0 < t)) = false := by simp [hpos]
    rcases Bool.eq_false_or_eq_true (db.watchlistHas u m.id) with hw | hw
    · have hre : removeFromWatchlist db t u
          = ({ isError := false, success := true,
               message := "Removed \"" ++ m.title ++ "\" from your watchlist." },
             db.deleteWatchlist u m.id) := by
        simp [removeFromWatchlist, hdec, hfind, hw]
      rw [hre]
      refine ⟨rfl, hw.symm, watchlistHas_deleteWatchlist_self db u m.id, ?_⟩
      intro hcontra
      rw [hcontra] at hw
      simp at hw
    · have hre : removeFromWatchlist db t u
          = ({ isError := false, success := false,
               message := "\"" ++ m.title ++ "\" was not in your watchlist." },
             db.deleteWatchlist u m.id) := by
        simp [removeFromWatchlist, hdec, hfind, hw]
      rw [hre]
      refine ⟨rfl, hw.symm, ?_, fun _ => by
        show db.deleteWatchlist u m.id = db
        exact deleteWatchlist_of_absent db u m.id hw⟩
      rw [deleteWatchlist_of_absent db u m.id hw]
      exact hw
  · intro hpos hfind
    have hdec : (!decide (0 < t)) = false := by simp [hpos]
    simp only [removeFromWatchlist, hdec, Bool.false_eq_true, if_false, hfind]

/-- Witness for C8 (amended): removing tmdb 5 for user 1 from
`cexWatchDB` (movie row id 1 present, watchlist row present) succeeds
and deletes the row. -/
theorem removeFromWatchlist_amended_witness :
    (removeFromWatchlist cexWatchDB 5 1).1.isError = false ∧
    (removeFromWatchlist cexWatchDB 5 1).1.success = cexWatchDB.watchlistHas 1 1 ∧
    ((removeFromWatchlist cexWatchDB 5 1).2).watchlistHas 1 1 = false ∧
    (cexWatchDB.watchlistHas 1 1 = false → (removeFromWatchlist cexWatchDB 5 1).2 = cexWatchDB) :=
  (removeFromWatchlist_amended cexWatchDB 5 1).1
    ⟨1, 5, "Movie", some 2000, "", none, some 7⟩ (by decide) rfl

/-! ### Cache coherence (C9) -/

theorem cacheGet_cacheDel (c : List (Nat × PrefResponse)) (u : Nat) :
    cacheGet (cacheDel c u) u = none := by
  have hfind : (cacheDel c u).find? (fun p => p.1 == u) = none := by
    rw [List.find?_eq_none]
    intro p hp
    simp only [cacheDel, List.mem_filter] at hp
    simp only [Bool.not_eq_true]
    simpa using hp.2
  simp [cacheGet, hfind]

theorem cacheGet_cacheSet_self (c : List (Nat × PrefResponse)) (u : Nat) (r : PrefResponse) :
    cacheGet (cacheSet c u r) u = some r := by
  unfold cacheGet cacheSet
  rw [List.find?_cons_of_pos _ (by simp)]

theorem getPreferences_twice_of_cache_none (env : PrefEnv) (s1 : PrefState) (u : Nat)
    (h : cacheGet s1.cache u = none) :
    (getPreferences env ((getPreferences env s1 u).2) u).1
      = freshPrefResponse env ((getPreferences env s1 u).2).rows u := by
  have hstate : (getPreferences env s1 u).2
      = { s1 with cache := cacheSet s1.cache u (freshPrefResponse env s1.rows u) } := by
    unfold getPreferences
    rw [h]
  rw [hstate]
  unfold getPreferences
  rw [show cacheGet (cacheSet s1.cache u (freshPrefResponse env s1.rows u)) u
      = some (freshPrefResponse env s1.rows u) from cacheGet_cacheSet_self _ _ _]

/-- C9: after a completed `setPreferences` write, the next
`getPreferences` call for that user returns exactly the enriched view
of the freshly written rows — even though the pre-write cache content
was arbitrary (in particular, possibly a stale copy of the old
preferences): the write invalidates and rebuilds the user's cache
entry, so no stale read occurs. -/
theorem getPreferences_after_setPreferences_coherent (env : PrefEnv) (s : PrefState) (u : Nat)
    (prefs : List (String × JValue))
    (hvalid : (prefs.isEmpty || prefs.any (fun p => p.1 == "")) = false) :
    (getPreferences env ((setPreferences env s u prefs).2) u).1
      = freshPrefResponse env ((setPreferences env s u prefs).2).rows u := by
  unfold setPreferences
  rw [if_neg (by simp [hvalid])]
  exact getPreferences_twice_of_cache_none env _ u (cacheGet_cacheDel s.cache u)

/-- Witness for C9: with a cached copy of the old preferences present
(`sCached`), writing favorite_genres = ["Drama"] and reading back
returns the fresh merged view. -/
theorem getPreferences_after_setPreferences_coherent_witness :
    (getPreferences demoPrefEnv ((setPreferences demoPrefEnv sCached 1
        [("favorite_genres", .arr [.str "Drama"])]).2) 1).1
      = freshPrefResponse demoPrefEnv ((setPreferences demoPrefEnv sCached 1
        [("favorite_genres", .arr [.str "Drama"])]).2).rows 1 :=
  getPreferences_after_setPreferences_coherent demoPrefEnv sCached 1
    [("favorite_genres", .arr [.str "Drama"])] rfl

/-! ### Person-name normalization round trip (C6) -/

theorem lookupPref_none_iff (rows : List PrefRow) (u : Nat) (k : String) :
    lookupPref rows u k = none
      ↔ rows.find? (fun r => r.user_id == u && r.key == k) = none := by
  unfold lookupPref
  cases h : rows.find? (fun r => r.user_id == u && r.key == k) <;> simp [h]

theorem lookupPref_deletePref_self (rows : List PrefRow) (u : Nat) (k : String) :
    lookupPref (deletePref rows u k) u k = none := by
  rw [lookupPref_none_iff, List.find?_eq_none]
  intro r hr
  simp only [deletePref, List.mem_filter] at hr
  have h2 := hr.2
  simp only [Bool.not_eq_true]
  simp at h2 ⊢
  tauto

theorem mergedPrefValue_actors_fresh (rows : List PrefRow) (u : Nat)
    (hfresh : lookupPref rows u "favorite_actors" = none) (v : JValue) :
    mergedPrefValue rows u "favorite_actors" (.arr [v])
      = .arr [.str (normalizePersonName v)] := by
  simp [mergedPrefValue, hfresh, listPrefKeys, JValue.isArr, normalizePersonNames]

/-- C6: whichever of the three person representations (bare string,
`{name: X}`, `{name: {name: X}}`) is supplied, `setPreferences` on
favorite_actors followed by `removePreferenceItem` with the bare name
succeeds and removes the entry, and — the list having become empty —
the favorite_actors preference row is deleted entirely. -/
theorem setThenRemove_personName_normalization (env : PrefEnv) (s : PrefState) (u : Nat)
    (X : String) (repv : JValue)
    (hfresh : lookupPref s.rows u "favorite_actors" = none)
    (hrep : repv = .str X ∨ repv = .obj [("name", .str X)]
      ∨ repv = .obj [("name", .obj [("name", .str X)])]) :
    (removePreferenceItem env ((setPreferences env s u
        [("favorite_actors", .arr [repv])]).2) u "favorite_actors" (.str X)).1.isError = false ∧
    lookupPref ((removePreferenceItem env ((setPreferences env s u
        [("favorite_actors", .arr [repv])]).2) u "favorite_actors" (.str X)).2).rows u
      "favorite_actors" = none := by
  have hnorm : normalizePersonName repv = X := by
    rcases hrep with h | h | h <;> subst h <;> rfl
  have hrows1 : ((setPreferences env s u [("favorite_actors", .arr [repv])]).2).rows
      = upsertPref s.rows u "favorite_actors" (.arr [.str X]) s.now := by
    rw [setPreferences_single_rows env s u "favorite_actors" _ rfl,
      mergedPrefValue_actors_fresh s.rows u hfresh repv, hnorm]
  have hlook : lookupPref ((setPreferences env s u
      [("favorite_actors", .arr [repv])]).2).rows u "favorite_actors"
      = some (.arr [.str X]) := by
    rw [hrows1]
    exact lookupPref_upsertPref_self s.rows u "favorite_actors" (.arr [.str X]) s.now
  constructor
  · simp [removePreferenceItem, removeUpdatedList, hlook, jsStrictEqItem]
  · simp only [removePreferenceItem, hlook]
    simp [removeUpdatedList, jsStrictEqItem, getPreferences_rows, lookupPref_deletePref_self]

/-- Witness for C6: the nested representation {name: {name: "Tom
Hanks"}} round-trips through set-then-remove leaving no row. -/
theorem setThenRemove_personName_normalization_witness :
    (removePreferenceItem demoPrefEnv ((setPreferences demoPrefEnv PrefState.empty 1
        [("favorite_actors", .arr [.obj [("name", .obj [("name", .str "Tom Hanks")])]])]).2) 1
        "favorite_actors" (.str "Tom Hanks")).1.isError = false ∧
    lookupPref ((removePreferenceItem demoPrefEnv ((setPreferences demoPrefEnv PrefState.empty 1
        [("favorite_actors", .arr [.obj [("name", .obj [("name", .str "Tom Hanks")])]])]).2) 1
        "favorite_actors" (.str "Tom Hanks")).2).rows 1 "favorite_actors" = none :=
  setThenRemove_personName_normalization demoPrefEnv PrefState.empty 1 "Tom Hanks"
    (.obj [("name", .obj [("name", .str "Tom Hanks")])]) rfl
    (Or.inr (Or.inr rfl))

/-! ### Watch-side invariant lemmas (C1, C3) -/

theorem watchlistHas_iff (db : DB) (u mid : Nat) :
    db.watchlistHas u mid = true
      ↔ ∃ r ∈ db.watchlist, r.user_id = u ∧ r.movie_id = mid := by
  simp [DB.watchlistHas, List.any_eq_true]

theorem watchedHas_iff (db : DB) (u mid : Nat) :
    db.watchedHas u mid = true
      ↔ ∃ r ∈ db.watched, r.user_id = u ∧ r.movie_id = mid := by
  simp [DB.watchedHas, List.any_eq_true]

theorem mutexOk_iff (db : DB) :
    db.mutexOk = true
      ↔ ∀ w ∈ db.watched, db.watchlistHas w.user_id w.movie_id = false := by
  simp [DB.mutexOk, List.all_eq_true]

theorem rowIdsOk_iff (db : DB) :
    db.rowIdsOk = true
      ↔ (∀ m ∈ db.movies, m.id < db.nextMovieId) ∧
        (∀ r ∈ db.watchlist, r.movie_id < db.nextMovieId) ∧
        (∀ w ∈ db.watched, w.movie_id < db.nextMovieId) := by
  simp only [DB.rowIdsOk, Bool.and_eq_true, List.all_eq_true, decide_eq_true_eq]
  tauto

theorem any_map_keep {α : Type} (l : List α) (f : α → α) (p : α → Bool)
    (h : ∀ x, p (f x) = p x) : (l.map f).any p = l.any p := by
  induction l with
  | nil => rfl
  | cons x xs ih => simp [List.any_cons, h, ih]

theorem watchedHas_fresh (db : DB) (u : Nat) (h : db.rowIdsOk = true) :
    db.watchedHas u db.nextMovieId = false := by
  by_contra hc
  rw [Bool.not_eq_false, watchedHas_iff] at hc
  obtain ⟨w, hw, _, hmid⟩ := hc
  have := ((rowIdsOk_iff db).mp h).2.2 w hw
  omega

theorem watchlistHas_deleteWatchlist_le (db : DB) (u mid a b : Nat)
    (h : (db.deleteWatchlist u mid).watchlistHas a b = true) :
    db.watchlistHas a b = true := by
  rw [watchlistHas_iff] at h ⊢
  obtain ⟨r, hr, hab⟩ := h
  simp only [DB.deleteWatchlist, List.mem_filter] at hr
  exact ⟨r, hr.1, hab⟩

theorem watchlistHas_insertWatchlist (db : DB) (u mid : Nat) (n : Option String)
    (a b : Nat) :
    (db.insertWatchlist u mid n).watchlistHas a b
      = (db.watchlistHas a b || (u == a && mid == b)) := by
  simp [DB.insertWatchlist, DB.watchlistHas, List.any_append]

theorem watchedHas_insertWatched_self (db : DB) (u mid : Nat) (r : Int)
    (n : Option String) : (db.insertWatched u mid r n).watchedHas u mid = true := by
  simp [DB.insertWatched, DB.watchedHas, List.any_append]

theorem mutexOk_updateWatched (db : DB) (u mid : Nat) (r : Int) (n : Option String)
    (h : db.mutexOk = true) : (db.updateWatched u mid r n).mutexOk = true := by
  rw [mutexOk_iff] at h
  unfold DB.mutexOk DB.updateWatched
  rw [show ({ db with watched := db.watched.map (fun r0 =>
      if r0.user_id == u && r0.movie_id == mid then
        { r0 with rating := r, notes := n } else r0) } : DB).watched
    = db.watched.map (fun r0 =>
      if r0.user_id == u && r0.movie_id == mid then
        { r0 with rating := r, notes := n } else r0) from rfl]
  rw [List.all_eq_true]
  intro w hw
  rw [List.mem_map] at hw
  obtain ⟨w0, hw0, hfw⟩ := hw
  have hkeep : w.user_id = w0.user_id ∧ w.movie_id = w0.movie_id := by
    by_cases hc : (w0.user_id == u && w0.movie_id == mid) = true
    · rw [← hfw]; simp [hc]
    · rw [← hfw]; simp [hc]
  have := h w0 hw0
  have hwl : ({ db with watched := db.watched.map (fun r0 =>
      if r0.user_id == u && r0.movie_id == mid then
        { r0 with rating := r, notes := n } else r0) } : DB).watchlistHas w.user_id w.movie_id
      = db.watchlistHas w.user_id w.movie_id := rfl
  rw [hwl, hkeep.1, hkeep.2, this]
  rfl

theorem mutexOk_insert_then_delete (db : DB) (u mid : Nat) (r : Int) (n : Option String)
    (h : db.mutexOk = true) :
    ((db.insertWatched u mid r n).deleteWatchlist u mid).mutexOk = true := by
  rw [mutexOk_iff] at h ⊢
  intro w hw
  have hwatched : ((db.insertWatched u mid r n).deleteWatchlist u mid).watched
      = db.watched ++ [⟨u, mid, r, n⟩] := rfl
  rw [hwatched] at hw
  rcases List.mem_append.mp hw with hold | hnew
  · have hdb := h w hold
    by_contra hc
    rw [Bool.not_eq_false] at hc
    have := watchlistHas_deleteWatchlist_le (db.insertWatched u mid r n) u mid _ _ hc
    have hins : (db.insertWatched u mid r n).watchlistHas w.user_id w.movie_id
        = db.watchlistHas w.user_id w.movie_id := rfl
    rw [hins, hdb] at this
    cases this
  · have hw2 : w = ⟨u, mid, r, n⟩ := by simpa using hnew
    rw [hw2]
    exact watchlistHas_deleteWatchlist_self (db.insertWatched u mid r n) u mid

theorem mutexOk_insertWatchlist (db : DB) (u mid : Nat) (n : Option String)
    (hmutex : db.mutexOk = true) (hnw : db.watchedHas u mid = false) :
    (db.insertWatchlist u mid n).mutexOk = true := by
  rw [mutexOk_iff] at hmutex ⊢
  intro w hw
  have hwatched : (db.insertWatchlist u mid n).watched = db.watched := rfl
  rw [hwatched] at hw
  rw [watchlistHas_insertWatchlist]
  have h1 := hmutex w hw
  rw [h1]
  simp only [Bool.false_or]
  by_contra hc
  rw [Bool.not_eq_false, Bool.and_eq_true, beq_iff_eq, beq_iff_eq] at hc
  have : db.watchedHas u mid = true := by
    rw [watchedHas_iff]
    exact ⟨w, hw, hc.1.symm, hc.2.symm⟩
  rw [this] at hnw
  cases hnw

theorem mutexOk_deleteWatchlist (db : DB) (u mid : Nat) (h : db.mutexOk = true) :
    (db.deleteWatchlist u mid).mutexOk = true := by
  rw [mutexOk_iff] at h ⊢
  intro w hw
  have hwatched : (db.deleteWatchlist u mid).watched = db.watched := rfl
  rw [hwatched] at hw
  by_contra hc
  rw [Bool.not_eq_false] at hc
  have := watchlistHas_deleteWatchlist_le db u mid _ _ hc
  rw [h w hw] at this
  cases this

theorem rowIdsOk_insertMovie (db : DB) (d : MovieDetails) (h : db.rowIdsOk = true) :
    ((db.insertMovie d).2).rowIdsOk = true := by
  rw [rowIdsOk_iff] at h ⊢
  obtain ⟨h1, h2, h3⟩ := h
  refine ⟨?_, ?_, ?_⟩
  · intro m hm
    rcases List.mem_append.mp hm with hold | hnew
    · have := h1 m hold
      simp only [DB.insertMovie]
      omega
    · have : m.id = db.nextMovieId := by
        simp at hnew
        rw [hnew]
      simp only [DB.insertMovie]
      omega
  · intro r hr
    have := h2 r hr
    simp only [DB.insertMovie]
    omega
  · intro w hw
    have := h3 w hw
    simp only [DB.insertMovie]
    omega

theorem rowIdsOk_insertWatchlist (db : DB) (u mid : Nat) (n : Option String)
    (h : db.rowIdsOk = true) (hmid : mid < db.nextMovieId) :
    (db.insertWatchlist u mid n).rowIdsOk = true := by
  rw [rowIdsOk_iff] at h ⊢
  obtain ⟨h1, h2, h3⟩ := h
  refine ⟨h1, ?_, h3⟩
  intro r hr
  rcases List.mem_append.mp hr with hold | hnew
  · exact h2 r hold
  · have : r = ⟨u, mid, n⟩ := by simpa using hnew
    rw [this]
    exact hmid

theorem rowIdsOk_insertWatched (db : DB) (u mid : Nat) (rt : Int) (n : Option String)
    (h : db.rowIdsOk = true) (hmid : mid < db.nextMovieId) :
    (db.insertWatched u mid rt n).rowIdsOk = true := by
  rw [rowIdsOk_iff] at h ⊢
  obtain ⟨h1, h2, h3⟩ := h
  refine ⟨h1, h2, ?_⟩
  intro w hw
  rcases List.mem_append.mp hw with hold | hnew
  · exact h3 w hold
  · have : w = ⟨u, mid, rt, n⟩ := by simpa using hnew
    rw [this]
    exact hmid

theorem rowIdsOk_updateWatched (db : DB) (u mid : Nat) (rt : Int) (n : Option String)
    (h : db.rowIdsOk = true) : (db.updateWatched u mid rt n).rowIdsOk = true := by
  rw [rowIdsOk_iff] at h ⊢
  obtain ⟨h1, h2, h3⟩ := h
  refine ⟨h1, h2, ?_⟩
  intro w hw
  simp only [DB.updateWatched, List.mem_map] at hw
  obtain ⟨w0, hw0, hfw⟩ := hw
  have : w.movie_id = w0.movie_id := by
    by_cases hc : (w0.user_id == u && w0.movie_id == mid) = true
    · rw [← hfw]; simp [hc]
    · rw [← hfw]; simp [hc]
  rw [this]
  exact h3 w0 hw0

theorem rowIdsOk_deleteWatchlist (db : DB) (u mid : Nat) (h : db.rowIdsOk = true) :
    (db.deleteWatchlist u mid).rowIdsOk = true := by
  rw [rowIdsOk_iff] at h ⊢
  obtain ⟨h1, h2, h3⟩ := h
  refine ⟨h1, ?_, h3⟩
  intro r hr
  simp only [DB.deleteWatchlist, List.mem_filter] at hr
  exact h2 r hr.1

theorem ensureMovieInline_cases (db : DB) (t : Nat) (d : MovieDetails) :
    (∃ m, db.findMovieByTmdb t = some m ∧ ensureMovieInline db t d = (m.id, db)) ∨
    (db.findMovieByTmdb t = none ∧ ensureMovieInline db t d = db.insertMovie d) := by
  unfold ensureMovieInline
  cases hf : db.findMovieByTmdb t with
  | some m => exact Or.inl ⟨m, rfl, rfl⟩
  | none => exact Or.inr ⟨rfl, rfl⟩

theorem findMovieByTmdb_mem (db : DB) (t : Nat) (m : Movie)
    (h : db.findMovieByTmdb t = some m) : m ∈ db.movies :=
  List.mem_of_find?_eq_some h

theorem ensureMovieInline_rowIds (db : DB) (t : Nat) (d : MovieDetails)
    (h : db.rowIdsOk = true) :
    ((ensureMovieInline db t d).2).rowIdsOk = true ∧
    (ensureMovieInline db t d).1 < ((ensureMovieInline db t d).2).nextMovieId := by
  rcases ensureMovieInline_cases db t d with ⟨m, hf, he⟩ | ⟨hf, he⟩
  · rw [he]
    exact ⟨h, ((rowIdsOk_iff db).mp h).1 m (findMovieByTmdb_mem db t m hf)⟩
  · rw [he]
    refine ⟨rowIdsOk_insertMovie db d h, ?_⟩
    show db.nextMovieId < db.nextMovieId + 1
    omega

theorem ensureMovieInline_watchlist (db : DB) (t : Nat) (d : MovieDetails) :
    ((ensureMovieInline db t d).2).watchlist = db.watchlist := by
  rcases ensureMovieInline_cases db t d with ⟨m, _, he⟩ | ⟨_, he⟩
  · rw [he]
  · rw [he]; rfl

theorem ensureMovieInline_watched (db : DB) (t : Nat) (d : MovieDetails) :
    ((ensureMovieInline db t d).2).watched = db.watched := by
  rcases ensureMovieInline_cases db t d with ⟨m, _, he⟩ | ⟨_, he⟩
  · rw [he]
  · rw [he]; rfl

theorem ensureMovieInline_mutex (db : DB) (t : Nat) (d : MovieDetails)
    (h : db.mutexOk = true) : ((ensureMovieInline db t d).2).mutexOk = true := by
  rcases ensureMovieInline_cases db t d with ⟨m, _, he⟩ | ⟨_, he⟩
  · rw [he]; exact h
  · rw [he]; exact h

theorem runTransaction_ok {R : Type} (db : DB) (act : DB → Except String (R × DB))
    (r : R) (db2 : DB) (h : runTransaction db act = (.ok r, db2)) :
    act db = .ok (r, db2) := by
  unfold runTransaction at h
  cases hact : act db with
  | ok p =>
      cases p with
      | mk a b =>
          rw [hact] at h
          simp at h
          rw [h.1, h.2]
  | error e => rw [hact] at h; simp at h

theorem handleMarkAsWatched_ok_cases (env : Env) (db : DB) (input : MarkAsWatchedInput)
    (u : Nat) (res : HandlerResult) (db2 : DB)
    (h : handleMarkAsWatched env db input u = .ok (res, db2)) :
    ∃ d movieId db1, env.tmdb input.tmdb_id = some d ∧
      ensureMovieInline db input.tmdb_id d = (movieId, db1) ∧
      ((db1.watchedHas u movieId = true ∧
        db2 = db1.updateWatched u movieId input.rating (jsOrNull input.notes)) ∨
       (db1.watchedHas u movieId = false ∧
        db2 = (db1.insertWatched u movieId input.rating
          (jsOrNull input.notes)).deleteWatchlist u movieId)) := by
  unfold handleMarkAsWatched at h
  split at h
  · cases h
  · rename_i d htm
    split at h
    · cases h
    · split at h
      rename_i movieId db1 hp
      split at h
      · rename_i hw
        simp only [Except.ok.injEq, Prod.mk.injEq] at h
        exact ⟨d, movieId, db1, htm, hp, Or.inl ⟨hw, h.2.symm⟩⟩
      · rename_i hw
        simp only [Except.ok.injEq, Prod.mk.injEq] at h
        exact ⟨d, movieId, db1, htm, hp, Or.inr ⟨by simpa using hw, h.2.symm⟩⟩

theorem handleMarkAsWatched_ok_mutex (env : Env) (db : DB) (input : MarkAsWatchedInput)
    (u : Nat) (res : HandlerResult) (db2 : DB) (hm : db.mutexOk = true)
    (h : handleMarkAsWatched env db input u = .ok (res, db2)) : db2.mutexOk = true := by
  obtain ⟨d, movieId, db1, _, hp, hcase⟩ := handleMarkAsWatched_ok_cases env db input u res db2 h
  have hm1 : db1.mutexOk = true := by
    have := ensureMovieInline_mutex db input.tmdb_id d hm
    rw [hp] at this
    exact this
  rcases hcase with ⟨_, hdb2⟩ | ⟨_, hdb2⟩
  · rw [hdb2]
    exact mutexOk_updateWatched db1 u movieId input.rating (jsOrNull input.notes) hm1
  · rw [hdb2]
    exact mutexOk_insert_then_delete db1 u movieId input.rating (jsOrNull input.notes) hm1

theorem handleMarkAsWatched_ok_rowIds (env : Env) (db : DB) (input : MarkAsWatchedInput)
    (u : Nat) (res : HandlerResult) (db2 : DB) (hr : db.rowIdsOk = true)
    (h : handleMarkAsWatched env db input u = .ok (res, db2)) : db2.rowIdsOk = true := by
  obtain ⟨d, movieId, db1, _, hp, hcase⟩ := handleMarkAsWatched_ok_cases env db input u res db2 h
  have hens := ensureMovieInline_rowIds db input.tmdb_id d hr
  rw [hp] at hens
  rcases hcase with ⟨_, hdb2⟩ | ⟨_, hdb2⟩
  · rw [hdb2]
    exact rowIdsOk_updateWatched db1 u movieId input.rating (jsOrNull input.notes) hens.1
  · rw [hdb2]
    exact rowIdsOk_deleteWatchlist _ u movieId
      (rowIdsOk_insertWatched db1 u movieId input.rating (jsOrNull input.notes) hens.1 hens.2)

theorem ensureMovieExists_ok_cases (env : Env) (db : DB) (t movieId : Nat) (db1 : DB)
    (h : ensureMovieExists env db t = .ok (movieId, db1)) :
    (∃ m, db.findMovieByTmdb t = some m ∧ movieId = m.id ∧ db1 = db) ∨
    (db.findMovieByTmdb t = none ∧
      ∃ d, env.tmdb t = some d ∧ (movieId, db1) = db.insertMovie d) := by
  unfold ensureMovieExists at h
  split at h
  · rename_i m hf
    simp only [Except.ok.injEq, Prod.mk.injEq] at h
    exact Or.inl ⟨m, hf, h.1.symm, h.2.symm⟩
  · rename_i hf
    split at h
    · rename_i d htm
      simp only [Except.ok.injEq] at h
      exact Or.inr ⟨hf, d, htm, h.symm⟩
    · cases h

theorem handleAddToWatchlist_ok_cases (env : Env) (db : DB) (input : AddToWatchlistInput)
    (u : Nat) (res : HandlerResult) (db2 : DB)
    (h : handleAddToWatchlist env db input u = .ok (res, db2)) :
    ∃ movieId db1, ensureMovieExists env db input.tmdb_id = .ok (movieId, db1) ∧
      ((db1.watchlistHas u movieId = true ∧ db2 = db1) ∨
       (db1.watchlistHas u movieId = false ∧
        db2 = db1.insertWatchlist u movieId (jsOrNull input.notes))) := by
  unfold handleAddToWatchlist at h
  cases he : ensureMovieExists env db input.tmdb_id with
  | error e =>
      rw [he] at h
      simp only [Bind.bind, Except.bind] at h
      cases h
  | ok p =>
      cases p with
      | mk movieId db1 =>
          rw [he] at h
          simp only [Bind.bind, Except.bind] at h
          split at h
          · rename_i hw
            simp only [Except.ok.injEq, Prod.mk.injEq] at h
            exact ⟨movieId, db1, rfl, Or.inl ⟨hw, h.2.symm⟩⟩
          · rename_i hw
            simp only [Except.ok.injEq, Prod.mk.injEq] at h
            exact ⟨movieId, db1, rfl, Or.inr ⟨by simpa using hw, h.2.symm⟩⟩

theorem handleAddToWatchlist_ok_rowIds (env : Env) (db : DB) (input : AddToWatchlistInput)
    (u : Nat) (res : HandlerResult) (db2 : DB) (hr : db.rowIdsOk = true)
    (h : handleAddToWatchlist env db input u = .ok (res, db2)) : db2.rowIdsOk = true := by
  obtain ⟨movieId, db1, hens, hcase⟩ := handleAddToWatchlist_ok_cases env db input u res db2 h
  have hfacts : db1.rowIdsOk = true ∧ movieId < db1.nextMovieId := by
    rcases ensureMovieExists_ok_cases env db input.tmdb_id movieId db1 hens with
      ⟨m, hf, hmid, hdb1⟩ | ⟨_, d, _, hpair⟩
    · rw [hdb1, hmid]
      exact ⟨hr, ((rowIdsOk_iff db).mp hr).1 m (findMovieByTmdb_mem db input.tmdb_id m hf)⟩
    · have h1 : movieId = db.nextMovieId := by
        have := congrArg Prod.fst hpair
        simpa [DB.insertMovie] using this
      have h2 : db1 = (db.insertMovie d).2 := congrArg Prod.snd hpair
      rw [h1, h2]
      refine ⟨rowIdsOk_insertMovie db d hr, ?_⟩
      show db.nextMovieId < db.nextMovieId + 1
      omega
  rcases hcase with ⟨_, hdb2⟩ | ⟨_, hdb2⟩
  · rw [hdb2]; exact hfacts.1
  · rw [hdb2]
    exact rowIdsOk_insertWatchlist db1 u movieId (jsOrNull input.notes) hfacts.1 hfacts.2

theorem handleAddToWatchlist_ok_mutex (env : Env) (db : DB) (input : AddToWatchlistInput)
    (u : Nat) (res : HandlerResult) (db2 : DB) (hr : db.rowIdsOk = true)
    (hm : db.mutexOk = true) (hsafe : db.watchedPairTmdb u input.tmdb_id = false)
    (h : handleAddToWatchlist env db input u = .ok (res, db2)) : db2.mutexOk = true := by
  obtain ⟨movieId, db1, hens, hcase⟩ := handleAddToWatchlist_ok_cases env db input u res db2 h
  have hfacts : db1.mutexOk = true ∧ db1.watchedHas u movieId = false := by
    rcases ensureMovieExists_ok_cases env db input.tmdb_id movieId db1 hens with
      ⟨m, hf, hmid, hdb1⟩ | ⟨_, d, _, hpair⟩
    · refine ⟨by rw [hdb1]; exact hm, ?_⟩
      rw [hdb1, hmid]
      unfold DB.watchedPairTmdb at hsafe
      rw [hf] at hsafe
      exact hsafe
    · have h1 : movieId = db.nextMovieId := by
        have := congrArg Prod.fst hpair
        simpa [DB.insertMovie] using this
      have h2 : db1 = (db.insertMovie d).2 := congrArg Prod.snd hpair
      refine ⟨by rw [h2]; exact hm, ?_⟩
      rw [h1, h2]
      show db.watchedHas u db.nextMovieId = false
      exact watchedHas_fresh db u hr
  rcases hcase with ⟨_, hdb2⟩ | ⟨_, hdb2⟩
  · rw [hdb2]; exact hfacts.1
  · rw [hdb2]
    exact mutexOk_insertWatchlist db1 u movieId (jsOrNull input.notes) hfacts.1 hfacts.2

theorem markAsWatched_state_cases (env : Env) (db : DB) (input : MarkAsWatchedInput)
    (u : Nat) :
    (markAsWatched env db input u).2 = db ∨
    ∃ res db2, handleMarkAsWatched env db input u = .ok (res, db2) ∧
      (markAsWatched env db input u).2 = db2 := by
  unfold markAsWatched
  split
  · exact Or.inl rfl
  · split
    · rename_i r dbx hrt
      exact Or.inr ⟨r, dbx, runTransaction_ok db _ r dbx hrt, rfl⟩
    · rename_i e dbx hrt
      exact Or.inl (runTransaction_error db _ e dbx hrt)

theorem addToWatchlist_state_cases (env : Env) (db : DB) (input : AddToWatchlistInput)
    (u : Nat) :
    (addToWatchlist env db input u).2 = db ∨
    ∃ res db2, handleAddToWatchlist env db input u = .ok (res, db2) ∧
      (addToWatchlist env db input u).2 = db2 := by
  unfold addToWatchlist
  split
  · exact Or.inl rfl
  · split
    · rename_i r dbx hrt
      exact Or.inr ⟨r, dbx, runTransaction_ok db _ r dbx hrt, rfl⟩
    · rename_i e dbx hrt
      exact Or.inl (runTransaction_error db _ e dbx hrt)

theorem removeFromWatchlist_state_cases (db : DB) (t u : Nat) :
    (removeFromWatchlist db t u).2 = db ∨
    ∃ m, db.findMovieByTmdb t = some m ∧
      (removeFromWatchlist db t u).2 = db.deleteWatchlist u m.id := by
  unfold removeFromWatchlist
  split
  · exact Or.inl rfl
  · split
    · exact Or.inl rfl
    · rename_i m hf
      refine Or.inr ⟨m, hf, ?_⟩
      by_cases hc : db.watchlistHas u m.id = true <;> simp [hc]

theorem runOp_rowIds (env : Env) (db : DB) (op : Op) (h : db.rowIdsOk = true) :
    (runOp env db op).rowIdsOk = true := by
  cases op with
  | add u t n =>
      rcases addToWatchlist_state_cases env db ⟨t, n⟩ u with heq | ⟨res, db2, hok, heq⟩
      · show ((addToWatchlist env db ⟨t, n⟩ u).2).rowIdsOk = true
        rw [heq]; exact h
      · show ((addToWatchlist env db ⟨t, n⟩ u).2).rowIdsOk = true
        rw [heq]
        exact handleAddToWatchlist_ok_rowIds env db ⟨t, n⟩ u res db2 h hok
  | remove u t =>
      rcases removeFromWatchlist_state_cases db t u with heq | ⟨m, _, heq⟩
      · show ((removeFromWatchlist db t u).2).rowIdsOk = true
        rw [heq]; exact h
      · show ((removeFromWatchlist db t u).2).rowIdsOk = true
        rw [heq]
        exact rowIdsOk_deleteWatchlist db u m.id h
  | mark u t r n =>
      rcases markAsWatched_state_cases env db ⟨t, r, n⟩ u with heq | ⟨res, db2, hok, heq⟩
      · show ((markAsWatched env db ⟨t, r, n⟩ u).2).rowIdsOk = true
        rw [heq]; exact h
      · show ((markAsWatched env db ⟨t, r, n⟩ u).2).rowIdsOk = true
        rw [heq]
        exact handleMarkAsWatched_ok_rowIds env db ⟨t, r, n⟩ u res db2 h hok

theorem runOp_mutex (env : Env) (db : DB) (op : Op) (hr : db.rowIdsOk = true)
    (hm : db.mutexOk = true)
    (hguard : ∀ u t n, op = .add u t n → db.watchedPairTmdb u t = false) :
    (runOp env db op).mutexOk = true := by
  cases op with
  | add u t n =>
      rcases addToWatchlist_state_cases env db ⟨t, n⟩ u with heq | ⟨res, db2, hok, heq⟩
      · show ((addToWatchlist env db ⟨t, n⟩ u).2).mutexOk = true
        rw [heq]; exact hm
      · show ((addToWatchlist env db ⟨t, n⟩ u).2).mutexOk = true
        rw [heq]
        exact handleAddToWatchlist_ok_mutex env db ⟨t, n⟩ u res db2 hr hm
          (hguard u t n rfl) hok
  | remove u t =>
      rcases removeFromWatchlist_state_cases db t u with heq | ⟨m, _, heq⟩
      · show ((removeFromWatchlist db t u).2).mutexOk = true
        rw [heq]; exact hm
      · show ((removeFromWatchlist db t u).2).mutexOk = true
        rw [heq]
        exact mutexOk_deleteWatchlist db u m.id hm
  | mark u t r n =>
      rcases markAsWatched_state_cases env db ⟨t, r, n⟩ u with heq | ⟨res, db2, hok, heq⟩
      · show ((markAsWatched env db ⟨t, r, n⟩ u).2).mutexOk = true
        rw [heq]; exact hm
      · show ((markAsWatched env db ⟨t, r, n⟩ u).2).mutexOk = true
        rw [heq]
        exact handleMarkAsWatched_ok_mutex env db ⟨t, r, n⟩ u res db2 hm hok

theorem safeOps_mutex_general (env : Env) : ∀ (ops : List Op) (db : DB),
    db.rowIdsOk = true → db.mutexOk = true → safeOps env db ops = true →
    (execOps env db ops).mutexOk = true := by
  intro ops
  induction ops with
  | nil =>
      intro db _ hm _
      simpa [execOps] using hm
  | cons op ops ih =>
      intro db hr hm hs
      unfold safeOps at hs
      rw [Bool.and_eq_true] at hs
      have hguard : ∀ u t n, op = .add u t n → db.watchedPairTmdb u t = false := by
        intro u t n heq
        subst heq
        simpa using hs.1
      show (execOps env (runOp env db op) ops).mutexOk = true
      exact ih (runOp env db op) (runOp_rowIds env db op hr)
        (runOp_mutex env db op hr hm hguard) hs.2

/-- C1 counterexample: starting from the empty state, the sequence
markAsWatched(u=1, tmdb=5, rating 4) then addToWatchlist(u=1, tmdb=5)
leaves both a WatchedEntry and a WatchlistEntry for the pair —
`addToWatchlist` never consults the watched table, so the claimed
invariant over arbitrary call sequences is false. -/
theorem mutex_invariant_cex :
    cexWatchDB = execOps demoEnv DB.empty [.mark 1 5 4 none, .add 1 5 none] ∧
    cexWatchDB.watchedHas 1 1 = true ∧ cexWatchDB.watchlistHas 1 1 = true ∧
    cexWatchDB.mutexOk = false :=
  ⟨rfl, rfl, rfl, rfl⟩

/-- C1 amended: for every sequence of public watch-side calls from the
empty state in which `addToWatchlist` is never invoked on a pair that
is currently watched, no (user, movie) pair ever has both a
WatchlistEntry and a WatchedEntry (`removeFromWatchlist` and
`markAsWatched` preserve the invariant unconditionally). -/
theorem mutex_invariant_amended (env : Env) (ops : List Op)
    (hsafe : safeOps env DB.empty ops = true) :
    (execOps env DB.empty ops).mutexOk = true :=
  safeOps_mutex_general env ops DB.empty rfl rfl hsafe

/-- Witness for C1 (amended): the safe sequence add-then-mark on the
same pair ends with the invariant intact. -/
theorem mutex_invariant_amended_witness :
    (execOps demoEnv DB.empty [.add 1 5 none, .mark 1 5 4 none]).mutexOk = true :=
  mutex_invariant_amended demoEnv [.add 1 5 none, .mark 1 5 4 none] rfl

/-- C3 counterexample: `cexWatchDB` is reachable by public calls, a
further markAsWatched on the pair returns successfully (update branch),
yet the WatchlistEntry for the pair is still present afterwards: the
update branch of `handleMarkAsWatched` returns before the watchlist
delete. -/
theorem markAsWatched_update_keeps_watchlist_cex :
    cexWatchDB = execOps demoEnv DB.empty [.mark 1 5 4 none, .add 1 5 none] ∧
    (markAsWatched demoEnv cexWatchDB ⟨5, 5, none⟩ 1).1.isError = false ∧
    (markAsWatched demoEnv cexWatchDB ⟨5, 5, none⟩ 1).1.success = true ∧
    ((markAsWatched demoEnv cexWatchDB ⟨5, 5, none⟩ 1).2).watchlistHas 1 1 = true :=
  ⟨rfl, rfl, rfl, rfl⟩

/-- C3 amended: on a successful `handleMarkAsWatched`, in the insert
branch (no WatchedEntry existed for the ensured movie row) the
watchlist row for the pair is deleted and a watched row exists
afterwards; in the update branch (a WatchedEntry already existed) the
watchlist table is left exactly as it was. -/
theorem markAsWatched_clears_watchlist_amended (env : Env) (db : DB)
    (input : MarkAsWatchedInput) (u : Nat) (res : HandlerResult) (db2 : DB)
    (d : MovieDetails) (movieId : Nat) (db1 : DB)
    (htm : env.tmdb input.tmdb_id = some d)
    (hp : ensureMovieInline db input.tmdb_id d = (movieId, db1))
    (h : handleMarkAsWatched env db input u = .ok (res, db2)) :
    (db1.watchedHas u movieId = false →
      db2.watchlistHas u movieId = false ∧ db2.watchedHas u movieId = true) ∧
    (db1.watchedHas u movieId = true → db2.watchlist = db.watchlist) := by
  obtain ⟨d2, movieId2, db12, htm2, hp2, hcase⟩ :=
    handleMarkAsWatched_ok_cases env db input u res db2 h
  rw [htm] at htm2
  have hd : d2 = d := by injection htm2 with h2; exact h2.symm
  rw [hd] at hp2
  rw [hp] at hp2
  have hmid : movieId2 = movieId := by injection hp2 with h2 _; exact h2.symm
  have hdb1 : db12 = db1 := by injection hp2 with _ h2; exact h2.symm
  rw [hmid, hdb1] at hcase
  constructor
  · intro hw
    rcases hcase with ⟨hw2, _⟩ | ⟨_, hdb2⟩
    · rw [hw] at hw2; cases hw2
    · rw [hdb2]
      refine ⟨watchlistHas_deleteWatchlist_self _ u movieId, ?_⟩
      have hsame : ((db1.insertWatched u movieId input.rating
            (jsOrNull input.notes)).deleteWatchlist u movieId).watchedHas u movieId
          = (db1.insertWatched u movieId input.rating
            (jsOrNull input.notes)).watchedHas u movieId := rfl
      rw [hsame]
      exact watchedHas_insertWatched_self db1 u movieId input.rating (jsOrNull input.notes)
  · intro hw
    rcases hcase with ⟨_, hdb2⟩ | ⟨hw2, _⟩
    · rw [hdb2]
      have h1 : (db1.updateWatched u movieId input.rating
          (jsOrNull input.notes)).watchlist = db1.watchlist := rfl
      rw [h1]
      have h2 := ensureMovieInline_watchlist db input.tmdb_id d
      rw [hp] at h2
      exact h2
    · rw [hw] at hw2; cases hw2

/-- Witness for C3 (amended): applied to the concrete update-branch run
from `cexWatchDB` — the watchlist table is untouched — and vacuously to
its insert-branch conjunct. -/
theorem markAsWatched_clears_watchlist_amended_witness :
    (cexWatchDB.watchedHas 1 1 = false →
      (cexWatchDB.updateWatched 1 1 5 none).watchlistHas 1 1 = false ∧
      (cexWatchDB.updateWatched 1 1 5 none).watchedHas 1 1 = true) ∧
    (cexWatchDB.watchedHas 1 1 = true →
      (cexWatchDB.updateWatched 1 1 5 none).watchlist = cexWatchDB.watchlist) :=
  markAsWatched_clears_watchlist_amended demoEnv cexWatchDB ⟨5, 5, none⟩ 1
    ⟨true, "Updated watch record with new rating."⟩ (cexWatchDB.updateWatched 1 1 5 none)
    (demoDetails 5) 1 cexWatchDB rfl rfl rfl

/-! ### Empty-list lifecycle (C7) -/

theorem rowsNoEmptyList_iff (rows : List PrefRow) :
    rowsNoEmptyList rows = true
      ↔ ∀ r ∈ rows, (listPrefKeys.contains r.key && r.value.isEmptyArr) = false := by
  unfold rowsNoEmptyList
  rw [List.all_eq_true]
  constructor
  · intro h r hr
    have h2 := h r hr
    rw [Bool.not_eq_true'] at h2
    exact h2
  · intro h r hr
    rw [Bool.not_eq_true']
    exact h r hr

theorem isEmptyArr_arr_iff (xs : List JValue) :
    (JValue.arr xs).isEmptyArr = false ↔ xs ≠ [] := by
  cases xs <;> simp [JValue.isEmptyArr]

theorem isEmptyArr_false_of_not_arr (v : JValue) (h : v.isArr = false) :
    v.isEmptyArr = false := by
  cases v <;> simp_all [JValue.isArr, JValue.isEmptyArr]

theorem merge_names_ne_nil (ex inc : List String) (hinc : inc ≠ []) :
    (ex ++ inc.filter (fun n => !ex.contains n)) ≠ [] := by
  cases ex with
  | cons a l => simp
  | nil =>
      simp only [List.nil_append]
      rw [show (fun n => !([] : List String).contains n) = (fun _ : String => true) from
        funext (fun n => rfl)]
      rw [List.filter_true]
      exact hinc

theorem merge_genres_ne_nil (ex inc : List JValue) (hinc : inc ≠ []) :
    (ex ++ inc.filter (fun item => !(ex.map jsToString).contains (jsToString item))) ≠ [] := by
  cases ex with
  | cons a l => simp
  | nil =>
      simp only [List.nil_append]
      rw [show (fun item => !(([] : List JValue).map jsToString).contains (jsToString item))
          = (fun _ : JValue => true) from funext (fun item => rfl)]
      rw [List.filter_true]
      exact hinc

theorem mergedPrefValue_not_emptyArr (rows : List PrefRow) (u : Nat) (k : String) (v : JValue)
    (hgood : (listPrefKeys.contains k && v.isEmptyArr) = false) :
    (listPrefKeys.contains k && (mergedPrefValue rows u k v).isEmptyArr) = false := by
  by_cases hk : listPrefKeys.contains k = true
  · rw [hk, Bool.true_and] at hgood ⊢
    by_cases ha : v.isArr = true
    · cases v with
      | arr incoming =>
          have hinc : incoming ≠ [] := (isEmptyArr_arr_iff incoming).mp hgood
          unfold mergedPrefValue
          rw [show (listPrefKeys.contains k && (JValue.arr incoming).isArr) = true by
            rw [hk]; rfl]
          simp only [if_true]
          by_cases hp : (k == "favorite_actors" || k == "favorite_directors") = true
          · rw [if_pos hp]
            rw [isEmptyArr_arr_iff]
            intro hcontra
            rw [List.map_eq_nil_iff] at hcontra
            exact merge_names_ne_nil _ (normalizePersonNames incoming)
              (by simp [normalizePersonNames, hinc]) hcontra
          · rw [if_neg hp]
            rw [isEmptyArr_arr_iff]
            exact merge_genres_ne_nil _ incoming hinc
      | str s => simp [JValue.isArr] at ha
      | num n => simp [JValue.isArr] at ha
      | boolean b => simp [JValue.isArr] at ha
      | null => simp [JValue.isArr] at ha
      | obj fs => simp [JValue.isArr] at ha
    · have ha2 : v.isArr = false := by simpa using ha
      rw [mergedPrefValue_nonarray rows u k v ha2]
      exact hgood
  · have hk2 : listPrefKeys.contains k = false := by simpa using hk
    rw [hk2, Bool.false_and]

theorem rowsNoEmptyList_upsert (rows : List PrefRow) (u : Nat) (k : String) (w : JValue)
    (t : Nat) (h : rowsNoEmptyList rows = true)
    (hw : (listPrefKeys.contains k && w.isEmptyArr) = false) :
    rowsNoEmptyList (upsertPref rows u k w t) = true := by
  rw [rowsNoEmptyList_iff] at h ⊢
  intro r hr
  unfold upsertPref at hr
  by_cases hany : (rows.any (fun r => r.user_id == u && r.key == k)) = true
  · rw [if_pos hany] at hr
    rw [List.mem_map] at hr
    obtain ⟨r0, hr0, hf⟩ := hr
    by_cases hc : (r0.user_id == u && r0.key == k) = true
    · have hkey : r0.key = k := by
        rw [Bool.and_eq_true] at hc
        exact beq_iff_eq.mp hc.2
      rw [← hf]
      simp only [hc, if_true]
      show (listPrefKeys.contains r0.key && w.isEmptyArr) = false
      rw [hkey]
      exact hw
    · rw [← hf]
      simp only [hc, Bool.false_eq_true, if_false]
      exact h r0 hr0
  · rw [if_neg hany] at hr
    rcases List.mem_append.mp hr with hold | hnew
    · exact h r hold
    · have : r = ⟨u, k, w, t⟩ := by simpa using hnew
      rw [this]
      exact hw

theorem rowsNoEmptyList_deletePref (rows : List PrefRow) (u : Nat) (k : String)
    (h : rowsNoEmptyList rows = true) :
    rowsNoEmptyList (deletePref rows u k) = true := by
  rw [rowsNoEmptyList_iff] at h ⊢
  intro r hr
  exact h r (List.mem_filter.mp hr).1

theorem rowsNoEmptyList_setFold (u t : Nat) : ∀ (prefs : List (String × JValue))
    (rows : List PrefRow), rowsNoEmptyList rows = true → goodSetPairs prefs = true →
    rowsNoEmptyList (prefs.foldl
      (fun acc p => upsertPref acc u p.1 (mergedPrefValue acc u p.1 p.2) t) rows) = true := by
  intro prefs
  induction prefs with
  | nil =>
      intro rows h _
      simpa using h
  | cons p ps ih =>
      intro rows h hg
      unfold goodSetPairs at hg
      rw [List.all_cons, Bool.and_eq_true] at hg
      have hg1 : (listPrefKeys.contains p.1 && p.2.isEmptyArr) = false := by
        have := hg.1
        rw [Bool.not_eq_true'] at this
        exact this
      rw [List.foldl_cons]
      exact ih _ (rowsNoEmptyList_upsert rows u p.1 _ t h
        (mergedPrefValue_not_emptyArr rows u p.1 p.2 hg1)) hg.2

theorem noEmptyListRow_setPreferences (env : PrefEnv) (s : PrefState) (u : Nat)
    (prefs : List (String × JValue)) (h : s.noEmptyListRow = true)
    (hg : goodSetPairs prefs = true) :
    ((setPreferences env s u prefs).2).noEmptyListRow = true := by
  unfold setPreferences
  split
  · exact h
  · show PrefState.noEmptyListRow (getPreferences env _ u).2 = true
    unfold PrefState.noEmptyListRow
    rw [getPreferences_rows]
    exact rowsNoEmptyList_setFold u s.now prefs s.rows h hg

theorem noEmptyListRow_removePreferenceItem (env : PrefEnv) (s : PrefState) (u : Nat)
    (key : String) (item : RemoveItem) (h : s.noEmptyListRow = true) :
    ((removePreferenceItem env s u key item).2).noEmptyListRow = true := by
  unfold removePreferenceItem
  split
  · exact h
  · split
    · exact h
    · split
      · rename_i xs heq
        by_cases hemp : (removeUpdatedList xs item).isEmpty = true
        · show PrefState.noEmptyListRow (getPreferences env _ u).2 = true
          unfold PrefState.noEmptyListRow
          rw [getPreferences_rows, if_pos hemp]
          exact rowsNoEmptyList_deletePref s.rows u key h
        · show PrefState.noEmptyListRow (getPreferences env _ u).2 = true
          unfold PrefState.noEmptyListRow
          rw [getPreferences_rows, if_neg hemp]
          refine rowsNoEmptyList_upsert s.rows u key _ s.now h ?_
          have hne : removeUpdatedList xs item ≠ [] := by
            intro hcontra
            rw [hcontra] at hemp
            exact hemp rfl
          rw [(isEmptyArr_arr_iff (removeUpdatedList xs item)).mpr hne, Bool.and_false]
      · exact h

theorem noEmptyListRow_trace (env : PrefEnv) : ∀ (ops : List PrefOp) (s : PrefState),
    s.noEmptyListRow = true → ops.all goodPrefOp = true →
    (execPrefOps env s ops).noEmptyListRow = true := by
  intro ops
  induction ops with
  | nil =>
      intro s h _
      simpa [execPrefOps] using h
  | cons op ops ih =>
      intro s h hg
      rw [List.all_cons, Bool.and_eq_true] at hg
      show (execPrefOps env (runPrefOp env s op) ops).noEmptyListRow = true
      refine ih (runPrefOp env s op) ?_ hg.2
      cases op with
      | set u prefs => exact noEmptyListRow_setPreferences env s u prefs h hg.1
      | removeItem u key item => exact noEmptyListRow_removePreferenceItem env s u key item h

/-- C7 counterexample: calling `setPreferences` with an empty array for
favorite_genres creates a PreferenceEntry row that holds the empty
list — the claimed "existence of the row implies non-empty content"
invariant is false. -/
theorem prefs_empty_list_cex :
    lookupPref ((setPreferences demoPrefEnv PrefState.empty 1
      [("favorite_genres", .arr [])]).2).rows 1 "favorite_genres" = some (.arr []) ∧
    ((setPreferences demoPrefEnv PrefState.empty 1
      [("favorite_genres", .arr [])]).2).noEmptyListRow = false :=
  ⟨rfl, rfl⟩

/-- C7 amended: for every sequence of public preference calls from the
empty state in which `setPreferences` is never handed an empty array
for a list-valued key, no PreferenceEntry row for a list-valued key
ever holds an empty list (`removePreferenceItem` deletes the row when
the filtered list becomes empty, and never stores an empty list). -/
theorem prefs_empty_list_lifecycle_amended (env : PrefEnv) (ops : List PrefOp)
    (hgood : ops.all goodPrefOp = true) :
    (execPrefOps env PrefState.empty ops).noEmptyListRow = true :=
  noEmptyListRow_trace env ops PrefState.empty rfl hgood

/-- Witness for C7 (amended): a concrete set-then-remove run whose
removal empties the list ends with no empty-list row. -/
theorem prefs_empty_list_lifecycle_amended_witness :
    (execPrefOps demoPrefEnv PrefState.empty
      [.set 1 [("favorite_genres", .arr [.str "Action"])],
       .removeItem 1 "favorite_genres" (.str "Action")]).noEmptyListRow = true :=
  prefs_empty_list_lifecycle_amended demoPrefEnv
    [.set 1 [("favorite_genres", .arr [.str "Action"])],
     .removeItem 1 "favorite_genres" (.str "Action")] rfl
